import Mathlib

/-!
# The MJPEG web server of `src/sistema_final.cpp`

A shallow embedding of the HTTP side of the program: `base64_decode`, the
request handling of `handle_client` (Basic authentication, routing, the stream
loop, the landing page) and the publish step of the capture loop in `main`.

Conventions of the embedding.

* A `char` / `uchar` is a natural number below 256; `std::string` and
  `std::vector<uchar>` are lists of them.
* `size_t` values are natural numbers, `std::string::npos` is `2 ^ 64 - 1` and
  the one subtraction on `size_t` the source performs is taken modulo `2 ^ 64`.
* `int` values are integers, wrapped to 32 bits where the source shifts left.
* Everything the handler does to the outside world (socket writes, sleeps, the
  mutex, closing the socket, the call to the login service) is recorded, in
  program order, as a list of `Event`s.  What the outside world answers (the
  login service, the shutdown flag, the shared JPEG buffer as the other thread
  left it, the return values of `send`) is an explicit input.
-/

namespace FaceRecognition

/-! ## Strings as byte lists -/

/-- UTF-8 encoding of one code point, the bytes a C++ narrow string literal
holds for it in a UTF-8 source file. -/
def utf8_encode (c : Nat) : List Nat :=
  if c < 0x80 then [c]
  else if c < 0x800 then [0xC0 + c / 64, 0x80 + c % 64]
  else if c < 0x10000 then [0xE0 + c / 4096, 0x80 + c / 64 % 64, 0x80 + c % 64]
  else [0xF0 + c / 262144, 0x80 + c / 4096 % 64, 0x80 + c / 64 % 64, 0x80 + c % 64]

/-- The bytes of a string literal of the source. -/
def str (s : String) : List Nat :=
  s.toList.flatMap (fun c => utf8_encode c.toNat)

/-- The value of `std::string::npos` (`size_t` is 64 bits wide). -/
def npos : Nat := 2 ^ 64 - 1

/-- Subtraction on `size_t`. -/
def size_sub (a b : Nat) : Nat := (a + 2 ^ 64 - b % 2 ^ 64) % 2 ^ 64

/-- Scan of `std::string::find`: `s` is the text from position `i` on; the
result is the first position at or after `i` where `needle` starts, or `npos`. -/
def find_aux (needle : List Nat) : List Nat → Nat → Nat
  | [], i => if needle = [] then i else npos
  | c :: cs, i => if needle.isPrefixOf (c :: cs) then i else find_aux needle cs (i + 1)

/-- `s.find(needle, pos)` of `std::string`. -/
def find (s needle : List Nat) (pos : Nat) : Nat :=
  if s.length < pos then npos else find_aux needle (s.drop pos) pos

/-- `s.substr(pos, count)` of `std::string`, for `pos ≤ s.size()` (the source
never calls it otherwise, see `substr_calls_in_range`): the `count` bytes from
`pos` on, or as many as there are. -/
def substr (s : List Nat) (pos count : Nat) : List Nat :=
  (s.drop pos).take count

/-! ## `base64_decode` -/

/-- The alphabet literal of `base64_decode`. -/
def base64_alphabet : List Nat :=
  str "ABCDEFGHIJKLMNOPQRSTUVWXYZabcdefghijklmnopqrstuvwxyz0123456789+/"

/-- The table `T` of `base64_decode`: 256 entries `-1`, then `T[alphabet[i]] = i`
for `i` from 0 to 63. -/
def base64_table : List Int :=
  (List.range 64).foldl (fun T i => T.set (base64_alphabet.getD i 0) (i : Int))
    (List.replicate 256 (-1))

/-- `T[c]` for an `unsigned char c`. -/
def table_at (c : Nat) : Int := base64_table.getD c (-1)

/-- Wrap-around of a 32-bit `int`. -/
def wrap_int32 (x : Int) : Int := (x + 2 ^ 31) % 2 ^ 32 - 2 ^ 31

/-- The loop of `base64_decode` over the remaining input, with the locals
`val`, `valb` and `out`.  `val << 6` wraps to 32 bits, `val >> valb` is the
arithmetic shift and `& 0xFF` keeps the low byte. -/
def base64_decode_loop : List Nat → Int → Int → List Nat → List Nat
  | [], _, _, out => out
  | c :: cs, val, valb, out =>
    if table_at c = -1 then out
    else
      let val1 := wrap_int32 (val * 64) + table_at c
      let valb1 := valb + 6
      if 0 ≤ valb1 then
        base64_decode_loop cs val1 (valb1 - 8)
          (out ++ [((val1 / 2 ^ valb1.toNat) % 256).toNat])
      else base64_decode_loop cs val1 valb1 out

/-- `base64_decode(in)`. -/
def base64_decode (input : List Nat) : List Nat :=
  base64_decode_loop input 0 (-8) []

/-! ## The outside world of `handle_client` -/

/-- What `handle_client` does to the outside world, in program order. -/
inductive Event where
  /-- The call `authenticate_system_user(user, password)`. -/
  | auth (user password : List Nat)
  /-- The call `send(client_socket, data, size, MSG_NOSIGNAL)` with these bytes. -/
  | send (data : List Nat)
  /-- The `std::lock_guard` on `global_frame_mutex` is constructed. -/
  | lock
  /-- The `std::lock_guard` on `global_frame_mutex` is destroyed. -/
  | unlock
  /-- The call `std::this_thread::sleep_for(std::chrono::milliseconds(ms))`. -/
  | sleep (ms : Nat)
  /-- The call `close(client_socket)`. -/
  | close
  deriving DecidableEq, Repr

/-- What the outside world presents to one pass of the stream loop: the value
of `keep_running` at the loop test, the content of `global_jpeg` once the lock
is held, and the return values of the three `send` calls of a part (each is
looked at only if the pass gets to that call). -/
structure Turn where
  keep_running : Bool
  global_jpeg : List Nat
  sent_header : Int
  sent_jpeg : Int
  sent_crlf : Int
  deriving DecidableEq, Repr

/-- `std::to_string` of a `size_t`: the decimal digits. -/
def to_string (n : Nat) : List Nat := (Nat.toDigits 10 n).map Char.toNat

/-! ## `handle_client` -/

/-- The local `auth_prefix` of `handle_client`. -/
def auth_prefix : List Nat := str "Authorization: Basic "

/-- The local `decoded` of `handle_client`, for a request in which
`auth_prefix` was found at `auth_pos`: the text from behind the prefix to the
next `"\r\n"` (or to the end of the request), Base64-decoded. -/
def decoded_payload (request : List Nat) (auth_pos : Nat) : List Nat :=
  let end_pos := find request (str "\r\n") auth_pos
  let encoded := substr request (auth_pos + auth_prefix.length)
    (size_sub end_pos (auth_pos + auth_prefix.length))
  base64_decode encoded

/-- Step 1 of `handle_client` (`// 1. Autenticación`): the calls made to the
login service and the final value of the local `authenticated`. -/
def authentication (request : List Nat)
    (authenticate_system_user : List Nat → List Nat → Bool) : List Event × Bool :=
  let auth_pos := find request auth_prefix 0
  if auth_pos ≠ npos then
    let decoded := decoded_payload request auth_pos
    let colon := find decoded (str ":") 0
    if colon ≠ npos then
      ([Event.auth (substr decoded 0 colon) (substr decoded (colon + 1) npos)],
        authenticate_system_user (substr decoded 0 colon) (substr decoded (colon + 1) npos))
    else ([], false)
  else ([], false)

/-- The 401 response of `handle_client`. -/
def response_401 : List Nat :=
  str "HTTP/1.1 401 Unauthorized\r\nWWW-Authenticate: Basic realm=\"RPi Security\"\r\nContent-Length: 0\r\n\r\n"

/-- The response header of the `/video_feed` route. -/
def stream_response_header : List Nat :=
  str "HTTP/1.1 200 OK\r\nContent-Type: multipart/x-mixed-replace; boundary=frame\r\n\r\n"

/-- The local `part_header` of the stream loop for a frame of `n` bytes. -/
def part_header (n : Nat) : List Nat :=
  str "--frame\r\nContent-Type: image/jpeg\r\nContent-Length: " ++ to_string n ++ str "\r\n\r\n"

/-- One pass of the body of `while (keep_running)` in the `/video_feed` route:
the events of the pass, and whether the loop goes on (`true`: `continue` or the
end of the body was reached; `false`: a `break`). -/
def stream_pass (t : Turn) : List Event × Bool :=
  if t.global_jpeg.isEmpty then
    ([Event.lock, Event.sleep 10, Event.unlock], true)
  else
    let current_jpeg := t.global_jpeg
    if t.sent_header < 0 then
      ([Event.lock, Event.unlock, Event.send (part_header current_jpeg.length)], false)
    else if t.sent_jpeg < 0 then
      ([Event.lock, Event.unlock, Event.send (part_header current_jpeg.length),
        Event.send current_jpeg], false)
    else if t.sent_crlf < 0 then
      ([Event.lock, Event.unlock, Event.send (part_header current_jpeg.length),
        Event.send current_jpeg, Event.send (str "\r\n")], false)
    else
      ([Event.lock, Event.unlock, Event.send (part_header current_jpeg.length),
        Event.send current_jpeg, Event.send (str "\r\n"), Event.sleep 100], true)

/-- The loop `while (keep_running) { ... }` of the `/video_feed` route, run
against the turns the outside world supplies: the events of the loop, and
whether the loop was left (`false`: the supplied turns ran out with the loop
still going). -/
def stream_loop : List Turn → List Event × Bool
  | [] => ([], false)
  | t :: ts =>
    if t.keep_running then
      if (stream_pass t).2 then
        ((stream_pass t).1 ++ (stream_loop ts).1, (stream_loop ts).2)
      else ((stream_pass t).1, true)
    else ([], true)

/-- The text before the log in the local `html` of the page route. -/
def html_head : List Nat :=
  str "<html><head><title>RPi Cam</title><style>" ++
  str "body\x7bfont-family:sans-serif; background:#222; color:#fff; text-align:center;\x7d" ++
  str "img\x7bborder: 2px solid #0f0; max-width:100%;\x7d" ++
  str "pre\x7bbackground:#333; padding:10px; text-align:left; max-height:300px; overflow:auto;\x7d" ++
  str "</style></head><body>" ++
  str "<h1>🔴 Live Secure Feed</h1>" ++
  str "<img src=\x27/video_feed\x27 alt=\x27Live Stream\x27 /><br>" ++
  str "<h3>Access Logs</h3>" ++
  str "<pre>"

/-- The text after the log in the local `html` of the page route. -/
def html_tail : List Nat :=
  str "</pre>" ++
  str "<p><a href=\x27/\x27 style=\x27color:#0f0\x27>Refresh Logs</a></p>" ++
  str "</body></html>"

/-- The local `html` of the page route, for the content `logs` of the log file
(empty when the file cannot be opened). -/
def html (logs : List Nat) : List Nat := html_head ++ logs ++ html_tail

/-- The one message the page route sends. -/
def page_response (logs : List Nat) : List Nat :=
  str "HTTP/1.1 200 OK\r\nContent-Type: text/html\r\nContent-Length: " ++
    to_string (html logs).length ++ str "\r\n\r\n" ++ html logs

/-- Step 2 of `handle_client` (`// 2. Enrutamiento`) up to the final
`close(client_socket)`, which an authenticated request reaches: the events, and
whether the function returned (`false`: still streaming when the turns ran
out). -/
def routing (request logs : List Nat) (turns : List Turn) : List Event × Bool :=
  if find request (str "GET /video_feed") 0 ≠ npos then
    ([Event.send stream_response_header] ++ (stream_loop turns).1 ++
      (if (stream_loop turns).2 then [Event.close] else []), (stream_loop turns).2)
  else
    ([Event.send (page_response logs), Event.close], true)

/-- `handle_client`, from the string `request` built out of the bytes read from
the socket (at most 4096, up to the first zero byte).  Inputs: the login
service `authenticate_system_user`, the content `logs` of the log file, and the
turns of the stream loop.  Result: the events in program order, and whether
the function returned (`false`: still streaming when the turns ran out). -/
def handle_client (request : List Nat)
    (authenticate_system_user : List Nat → List Nat → Bool)
    (logs : List Nat) (turns : List Turn) : List Event × Bool :=
  let a := authentication request authenticate_system_user
  if !a.2 then
    (a.1 ++ [Event.send response_401, Event.close], true)
  else
    (a.1 ++ (routing request logs turns).1, (routing request logs turns).2)

/-- The bytes handed to `send`, in order. -/
def sent : List Event → List (List Nat)
  | [] => []
  | Event.send d :: es => d :: sent es
  | _ :: es => sent es

/-- The credentials the login service was asked about, in order. -/
def calls : List Event → List (List Nat × List Nat)
  | [] => []
  | Event.auth user password :: es => (user, password) :: calls es
  | _ :: es => calls es

/-- What the client sees of a run: the writes to the socket and its closing. -/
def on_socket : List Event → List Event
  | [] => []
  | Event.send d :: es => Event.send d :: on_socket es
  | Event.close :: es => Event.close :: on_socket es
  | _ :: es => on_socket es

/-- Whether a run keeps the mutex clear of waiting and of network output:
no `sleep` and no `send` between a `lock` and its `unlock` (`held` says whether
the mutex is held at the start of the run). -/
def lock_only_for_copy : Bool → List Event → Bool
  | _, [] => true
  | _, Event.lock :: es => lock_only_for_copy true es
  | _, Event.unlock :: es => lock_only_for_copy false es
  | held, Event.sleep _ :: es => !held && lock_only_for_copy held es
  | held, Event.send _ :: es => !held && lock_only_for_copy held es
  | held, _ :: es => lock_only_for_copy held es

/-! ## The capture loop of `main` and the shared buffer -/

/-- What one pass of the capture loop of `main` gets from the vision library:
whether the captured `frame` is empty, the return value of `cv::imencode`
and the content it leaves in the local `buf`. -/
structure Capture where
  frame_empty : Bool
  encoded : Bool
  buf : List Nat
  deriving DecidableEq, Repr

/-- One pass of `while (keep_running)` in `main`, as far as `global_jpeg` goes:
`if (frame.empty()) continue;`, then, under the mutex, `global_jpeg = buf;`
(the return value of `cv::imencode` is not looked at).  The result is the new
content of `global_jpeg`. -/
def capture_cycle (c : Capture) (global_jpeg : List Nat) : List Nat :=
  if c.frame_empty then global_jpeg else c.buf

/-- The critical sections on `global_frame_mutex`, each taken as one step. -/
inductive Step where
  /-- The one of `main`: `global_jpeg = buf;`. -/
  | publish (buf : List Nat)
  /-- The one of the stream loop: test `global_jpeg.empty()`, else
  `current_jpeg = global_jpeg;`. -/
  | snapshot
  deriving DecidableEq, Repr

/-- The local `current_jpeg` of the stream loop when its critical section is
left: still empty when `global_jpeg` is empty, else the copy. -/
def snapshot (global_jpeg : List Nat) : List Nat :=
  if global_jpeg.isEmpty then [] else global_jpeg

/-- The content of `global_jpeg` after a sequence of critical sections. -/
def held : List Step → List Nat → List Nat
  | [], global_jpeg => global_jpeg
  | Step.publish buf :: rest, _ => held rest buf
  | Step.snapshot :: rest, global_jpeg => held rest global_jpeg

/-- The three buffers the stream loop hands to `send` for the frame
`current_jpeg`, in program order. -/
def part (current_jpeg : List Nat) : List (List Nat) :=
  [part_header current_jpeg.length, current_jpeg, str "\r\n"]

/-! ## The wording of the specification -/

/-- Standard Base64 (RFC 4648) of a byte list, with `=` padding. -/
def base64_encode : List Nat → List Nat
  | [] => []
  | [a] => [base64_alphabet.getD (a / 4) 0, base64_alphabet.getD (a % 4 * 16) 0, 61, 61]
  | [a, b] =>
    [base64_alphabet.getD (a / 4) 0, base64_alphabet.getD (a % 4 * 16 + b / 16) 0,
      base64_alphabet.getD (b % 16 * 4) 0, 61]
  | a :: b :: c :: rest =>
    base64_alphabet.getD (a / 4) 0 :: base64_alphabet.getD (a % 4 * 16 + b / 16) 0 ::
      base64_alphabet.getD (b % 16 * 4 + c / 64) 0 :: base64_alphabet.getD (c % 64) 0 ::
      base64_encode rest

/-- The number a text of decimal digits stands for. -/
def decimal_value (digits : List Nat) : Nat :=
  digits.foldl (fun n d => 10 * n + (d - 48)) 0

/-- The lines of an HTTP message: the text split at every `"\r\n"` (`line` is
the part of the current line already passed). -/
def split_crlf : List Nat → List Nat → List (List Nat)
  | [], line => [line]
  | [c], line => [line ++ [c]]
  | c :: d :: rest, line =>
    if c = 13 ∧ d = 10 then line :: split_crlf rest []
    else split_crlf (d :: rest) (line ++ [c])

/-- The header lines of a request: the lines after the request line, up to the
empty line that ends the header section. -/
def header_lines (request : List Nat) : List (List Nat) :=
  ((split_crlf request []).drop 1).takeWhile (fun l => !l.isEmpty)

/-- ASCII lower case, for the comparison of field names. -/
def to_lower (c : Nat) : Nat := if 65 ≤ c ∧ c ≤ 90 then c + 32 else c

/-- The value of the first header field of the request with this name (names
compare without regard to case, blanks before the value are not part of it),
if the request carries such a field. -/
def header_value (request name : List Nat) : Option (List Nat) :=
  ((header_lines request).find?
      (fun l => (l.takeWhile (fun c => c != 58)).map to_lower == name.map to_lower)).map
    (fun l => ((l.dropWhile (fun c => c != 58)).drop 1).dropWhile (fun c => c == 32 || c == 9))

/-- The method of the request line: its text up to the first blank. -/
def request_method (request : List Nat) : List Nat :=
  request.takeWhile (fun c => c != 32)

/-- The path of the request line: the text between its first and second blank. -/
def request_path (request : List Nat) : List Nat :=
  ((request.dropWhile (fun c => c != 32)).drop 1).takeWhile (fun c => c != 32 && c != 13)

/-! ## Concrete inputs -/

/-- A login service that knows one account, `pi` with password `raspberry`. -/
def only_pi (user password : List Nat) : Bool :=
  user == str "pi" && password == str "raspberry"

/-- A request without an `Authorization` field; its `Proxy-Authorization`
field holds `pi:raspberry`. -/
def request_with_proxy_field : List Nat :=
  str "GET / HTTP/1.1\r\nHost: rpi\r\nProxy-Authorization: Basic cGk6cmFzcGJlcnJ5\r\n\r\n"

/-- A request whose `Authorization` field holds `pi:raspberry` and whose
`Proxy-Authorization` field, one line earlier, holds `guest:guest`. -/
def request_with_both_fields : List Nat :=
  str "GET / HTTP/1.1\r\nProxy-Authorization: Basic Z3Vlc3Q6Z3Vlc3Q=\r\nAuthorization: Basic cGk6cmFzcGJlcnJ5\r\n\r\n"

/-- `GET /` with the credentials `pi:raspberry`. -/
def request_page : List Nat :=
  str "GET / HTTP/1.1\r\nAuthorization: Basic cGk6cmFzcGJlcnJ5\r\n\r\n"

/-- `GET /video_feed` with the credentials `pi:raspberry`. -/
def request_stream : List Nat :=
  str "GET /video_feed HTTP/1.1\r\nAuthorization: Basic cGk6cmFzcGJlcnJ5\r\n\r\n"

/-- `POST /video_feed` with the credentials `pi:raspberry`. -/
def request_post_stream : List Nat :=
  str "POST /video_feed HTTP/1.1\r\nAuthorization: Basic cGk6cmFzcGJlcnJ5\r\n\r\n"

/-- `GET /` with the credentials `pi:raspberry` and a field whose value holds
the text `GET /video_feed`. -/
def request_page_naming_stream : List Nat :=
  str "GET / HTTP/1.1\r\nAuthorization: Basic cGk6cmFzcGJlcnJ5\r\nX-Note: GET /video_feed\r\n\r\n"

/-- A request without credentials. -/
def request_anonymous : List Nat :=
  str "GET /video_feed HTTP/1.1\r\nHost: rpi\r\n\r\n"

/-- A request whose Basic payload `cGk=` decodes to `pi`, without a colon. -/
def request_no_colon : List Nat :=
  str "GET / HTTP/1.1\r\nAuthorization: Basic cGk=\r\n\r\n"

/-- A small JPEG-like frame of four bytes. -/
def frame_a : List Nat := [0xFF, 0xD8, 0xFF, 0xD9]

/-- A second frame, of five bytes. -/
def frame_b : List Nat := [0xFF, 0xD8, 0x00, 0xFF, 0xD9]

/-! ## `find` and `substr` -/

theorem isPrefixOf_iff (needle s : List Nat) : needle.isPrefixOf s = true ↔ needle <+: s :=
  List.isPrefixOf_iff_prefix

/-- An occurrence of `needle` in `s` is a prefix of some `s.drop k`. -/
theorem infix_iff_drop (needle s : List Nat) :
    needle <:+: s ↔ ∃ k, k ≤ s.length ∧ needle <+: s.drop k := by
  constructor
  · rintro ⟨a, b, h⟩
    refine ⟨a.length, ?_, ?_⟩
    · rw [← h]; simp
    · rw [← h]; simp [List.append_assoc]
  · rintro ⟨k, _, t, ht⟩
    exact ⟨s.take k, t, by rw [List.append_assoc, ht, List.take_append_drop]⟩

/-- A scan that ends in `npos` passed no occurrence; any other result is the
first occurrence. -/
theorem find_aux_spec (needle : List Nat) (hne : needle ≠ []) :
    ∀ (s : List Nat) (i : Nat),
      (find_aux needle s i = npos ∧ ∀ k, k ≤ s.length → ¬ needle <+: s.drop k) ∨
      (∃ k, k < s.length ∧ find_aux needle s i = i + k ∧ needle <+: s.drop k ∧
        ∀ j, j < k → ¬ needle <+: s.drop j) := by
  intro s
  induction s with
  | nil =>
    intro i
    left
    refine ⟨by simp [find_aux, hne], ?_⟩
    intro k _ h
    simp at h
    exact hne h
  | cons c cs ih =>
    intro i
    by_cases hp : needle.isPrefixOf (c :: cs) = true
    · right
      refine ⟨0, by simp, by simp [find_aux, hp], ?_, by simp⟩
      simpa using (isPrefixOf_iff _ _).1 hp
    · have hstep : find_aux needle (c :: cs) i = find_aux needle cs (i + 1) := by
        simp [find_aux, hp]
      have hp0 : ¬ needle <+: c :: cs := fun h => hp ((isPrefixOf_iff _ _).2 h)
      rcases ih (i + 1) with ⟨h1, h2⟩ | ⟨k, hk, h1, h2, h3⟩
      · left
        refine ⟨by rw [hstep, h1], ?_⟩
        intro k hk
        cases k with
        | zero => simpa using hp0
        | succ k => simpa using h2 k (by simpa using hk)
      · right
        refine ⟨k + 1, by simpa using hk, by rw [hstep, h1]; omega, by simpa using h2, ?_⟩
        intro j hj
        cases j with
        | zero => simpa using hp0
        | succ j => simpa using h3 j (by omega)

/-- The scan returns the first occurrence. -/
theorem find_aux_eq (needle : List Nat) (hne : needle ≠ []) (s : List Nat) (i k : Nat)
    (hk : needle <+: s.drop k) (hfirst : ∀ j, j < k → ¬ needle <+: s.drop j) :
    find_aux needle s i = i + k := by
  have hkl : k < s.length := by
    by_contra hge
    rw [List.drop_eq_nil_of_le (by omega)] at hk
    exact hne (List.prefix_nil.1 hk)
  rcases find_aux_spec needle hne s i with ⟨_, h2⟩ | ⟨k', _, h1, h2, h3⟩
  · exact absurd hk (h2 k (by omega))
  · have : k' = k := by
      rcases Nat.lt_trichotomy k' k with h | h | h
      · exact absurd h2 (hfirst k' h)
      · exact h
      · exact absurd hk (h3 k h)
    rw [h1, this]

/-- A text without the needle: `find` answers `npos`. -/
theorem find_eq_npos (needle s : List Nat) (hne : needle ≠ []) (h : ¬ needle <:+: s) :
    find s needle 0 = npos := by
  have h0 : find s needle 0 = find_aux needle s 0 := by simp [find]
  rcases find_aux_spec needle hne s 0 with ⟨h1, _⟩ | ⟨k, hk, _, h2, _⟩
  · rw [h0, h1]
  · exact absurd ((infix_iff_drop needle s).2 ⟨k, by omega, h2⟩) h

/-- A text of at most 4096 bytes with the needle: `find` answers a position. -/
theorem find_ne_npos (needle s : List Nat) (hne : needle ≠ []) (hlen : s.length ≤ 4096)
    (h : needle <:+: s) : find s needle 0 ≠ npos := by
  have h0 : find s needle 0 = find_aux needle s 0 := by simp [find]
  rcases find_aux_spec needle hne s 0 with ⟨_, h2⟩ | ⟨k, hk, h1, _, _⟩
  · obtain ⟨k, hk, hp⟩ := (infix_iff_drop needle s).1 h
    exact absurd hp (h2 k hk)
  · rw [h0, h1]
    simp only [npos]
    omega

/-- Whenever `find` answers a position, the needle fits into the text from
there. -/
theorem find_in_range (needle s : List Nat) (hne : needle ≠ [])
    (h : find s needle 0 ≠ npos) : find s needle 0 + needle.length ≤ s.length := by
  have h0 : find s needle 0 = find_aux needle s 0 := by simp [find]
  rcases find_aux_spec needle hne s 0 with ⟨h1, _⟩ | ⟨k, hk, h1, h2, _⟩
  · exact absurd (h0.trans h1) h
  · rw [h0, h1]
    have := h2.length_le
    simp at this
    omega

/-! ## Authentication -/

theorem auth_prefix_ne_nil : auth_prefix ≠ [] := by decide

/-- Without the text of `auth_prefix` in the request nothing is decoded and the
login service is not called. -/
theorem authentication_without_text (request : List Nat)
    (authority : List Nat → List Nat → Bool) (h : ¬ auth_prefix <:+: request) :
    authentication request authority = ([], false) := by
  simp [authentication, find_eq_npos auth_prefix request auth_prefix_ne_nil h]

/-- A request that ends up not authenticated gets the 401 and the `close`. -/
theorem handle_client_unauthenticated (request : List Nat)
    (authority : List Nat → List Nat → Bool) (logs : List Nat) (turns : List Turn)
    (h : (authentication request authority).2 = false) :
    handle_client request authority logs turns =
      ((authentication request authority).1 ++ [Event.send response_401, Event.close], true) := by
  simp [handle_client, h]

/-- An authenticated request goes on to the routing. -/
theorem handle_client_authenticated (request : List Nat)
    (authority : List Nat → List Nat → Bool) (logs : List Nat) (turns : List Turn)
    (h : (authentication request authority).2 = true) :
    handle_client request authority logs turns =
      ((authentication request authority).1 ++ (routing request logs turns).1,
        (routing request logs turns).2) := by
  simp [handle_client, h]

/-- The only events of the authentication step are calls to the login service. -/
theorem authentication_events (request : List Nat) (authority : List Nat → List Nat → Bool) :
    ∀ e ∈ (authentication request authority).1, ∃ u p, e = Event.auth u p := by
  intro e he
  unfold authentication at he
  simp only at he
  split at he
  · split at he
    · simp at he
      exact ⟨_, _, he⟩
    · simp at he
  · simp at he

theorem on_socket_append (a b : List Event) : on_socket (a ++ b) = on_socket a ++ on_socket b := by
  induction a with
  | nil => rfl
  | cons e es ih => cases e <;> simp [on_socket, ih]

theorem sent_append (a b : List Event) : sent (a ++ b) = sent a ++ sent b := by
  induction a with
  | nil => rfl
  | cons e es ih => cases e <;> simp [sent, ih]

/-- The client sees nothing of the authentication step. -/
theorem on_socket_authentication (request : List Nat) (authority : List Nat → List Nat → Bool) :
    on_socket (authentication request authority).1 = [] := by
  unfold authentication
  simp only
  split
  · split <;> simp [on_socket]
  · simp [on_socket]

theorem sent_authentication (request : List Nat) (authority : List Nat → List Nat → Bool) :
    sent (authentication request authority).1 = [] := by
  unfold authentication
  simp only
  split
  · split <;> simp [sent]
  · simp [sent]

/-! ## C1 -/

set_option maxRecDepth 100000 in
/-- C1, refuted as stated: a request that carries no `Authorization` field but a
`Proxy-Authorization` field with the credentials of an account is taken as
authenticated and gets the landing page, not the 401. -/
theorem proxy_field_alone_is_authenticated :
    header_value request_with_proxy_field (str "Authorization") = none ∧
    handle_client request_with_proxy_field only_pi [] [] =
      ([Event.auth (str "pi") (str "raspberry"), Event.send (page_response []),
        Event.close], true) ∧
    sent (handle_client request_with_proxy_field only_pi [] []).1 ≠ [response_401] := by
  decide

/-- C1, as the code has it: a request whose text holds `Authorization: Basic `
nowhere (in no field name, field value, path or body) gets, whatever its
method and path, exactly one write, the 401 response, and then the close.  The
response starts with the status line `HTTP/1.1 401 Unauthorized`, carries a
`WWW-Authenticate: Basic realm=` field and ends behind `Content-Length: 0` and
the empty line, so its body is empty; it is no `200` response. -/
theorem no_basic_text_gets_401 (request : List Nat)
    (authority : List Nat → List Nat → Bool) (logs : List Nat) (turns : List Turn)
    (h : ¬ auth_prefix <:+: request) :
    handle_client request authority logs turns =
      ([Event.send response_401, Event.close], true) ∧
    str "HTTP/1.1 401 Unauthorized\r\n" <+: response_401 ∧
    str "\r\nWWW-Authenticate: Basic realm=" <:+: response_401 ∧
    str "\r\nContent-Length: 0\r\n\r\n" <:+ response_401 ∧
    ¬ str "HTTP/1.1 200" <+: response_401 := by
  refine ⟨?_, by decide, by decide, by decide, by decide⟩
  rw [handle_client_unauthenticated request authority logs turns
    (by rw [authentication_without_text request authority h]),
    authentication_without_text request authority h]
  rfl

set_option maxRecDepth 100000 in
/-- C1 at a request without credentials. -/
theorem no_basic_text_gets_401_witness :
    ¬ auth_prefix <:+: request_anonymous ∧
    handle_client request_anonymous only_pi [] [] =
      ([Event.send response_401, Event.close], true) :=
  ⟨by decide, (no_basic_text_gets_401 request_anonymous only_pi [] [] (by decide)).1⟩

/-! ## C3 -/

/-- A decoded payload without a colon: `find` answers `npos`. -/
theorem find_colon_npos (decoded : List Nat) (h : 58 ∉ decoded) :
    find decoded (str ":") 0 = npos := by
  apply find_eq_npos _ _ (by decide)
  intro hin
  exact h (hin.subset (by decide))

/-- A payload without a colon leaves the request not authenticated, and the
login service is not called. -/
theorem authentication_without_colon (request : List Nat)
    (authority : List Nat → List Nat → Bool)
    (h : 58 ∉ decoded_payload request (find request auth_prefix 0)) :
    authentication request authority = ([], false) := by
  unfold authentication
  simp only
  split
  · rw [find_colon_npos _ h]
    simp
  · rfl

/-- A login service that rejects whatever it is asked leaves the request not
authenticated. -/
theorem authentication_rejected (request : List Nat)
    (authority : List Nat → List Nat → Bool) (h : ∀ u p, authority u p = false) :
    (authentication request authority).2 = false := by
  unfold authentication
  simp only
  split
  · split
    · exact h _ _
    · rfl
  · rfl

/-- C3: any two requests that end up not authenticated are answered alike.  What
the client sees is in both cases the one write of the fixed 401 response
followed by the close, and the handler returns.  A request without the text
`Authorization: Basic `, a request whose decoded payload has no colon and a
request put to a login service that rejects it all end up not authenticated. -/
theorem failures_are_answered_alike
    (request₁ request₂ : List Nat) (authority₁ authority₂ : List Nat → List Nat → Bool)
    (logs₁ logs₂ : List Nat) (turns₁ turns₂ : List Turn)
    (h₁ : (authentication request₁ authority₁).2 = false)
    (h₂ : (authentication request₂ authority₂).2 = false) :
    on_socket (handle_client request₁ authority₁ logs₁ turns₁).1 =
      [Event.send response_401, Event.close] ∧
    on_socket (handle_client request₂ authority₂ logs₂ turns₂).1 =
      on_socket (handle_client request₁ authority₁ logs₁ turns₁).1 ∧
    sent (handle_client request₂ authority₂ logs₂ turns₂).1 =
      sent (handle_client request₁ authority₁ logs₁ turns₁).1 ∧
    (handle_client request₁ authority₁ logs₁ turns₁).2 = true ∧
    (handle_client request₂ authority₂ logs₂ turns₂).2 = true ∧
    (∀ (request : List Nat) (authority : List Nat → List Nat → Bool),
      ¬ auth_prefix <:+: request → (authentication request authority).2 = false) ∧
    (∀ (request : List Nat) (authority : List Nat → List Nat → Bool),
      58 ∉ decoded_payload request (find request auth_prefix 0) →
        (authentication request authority).2 = false) ∧
    (∀ (request : List Nat) (authority : List Nat → List Nat → Bool),
      (∀ u p, authority u p = false) → (authentication request authority).2 = false) := by
  have e₁ := handle_client_unauthenticated request₁ authority₁ logs₁ turns₁ h₁
  have e₂ := handle_client_unauthenticated request₂ authority₂ logs₂ turns₂ h₂
  have s₁ : on_socket (handle_client request₁ authority₁ logs₁ turns₁).1 =
      [Event.send response_401, Event.close] := by
    rw [e₁, on_socket_append, on_socket_authentication]; rfl
  have s₂ : on_socket (handle_client request₂ authority₂ logs₂ turns₂).1 =
      [Event.send response_401, Event.close] := by
    rw [e₂, on_socket_append, on_socket_authentication]; rfl
  have t₁ : sent (handle_client request₁ authority₁ logs₁ turns₁).1 = [response_401] := by
    rw [e₁, sent_append, sent_authentication]; rfl
  have t₂ : sent (handle_client request₂ authority₂ logs₂ turns₂).1 = [response_401] := by
    rw [e₂, sent_append, sent_authentication]; rfl
  refine ⟨s₁, by rw [s₁, s₂], by rw [t₁, t₂], by rw [e₁], by rw [e₂], ?_, ?_, ?_⟩
  · intro request authority h
    rw [authentication_without_text request authority h]
  · intro request authority h
    rw [authentication_without_colon request authority h]
  · intro request authority h
    exact authentication_rejected request authority h

set_option maxRecDepth 100000 in
/-- C3 at a request whose payload has no colon and a request without
credentials. -/
theorem failures_are_answered_alike_witness :
    (authentication request_no_colon only_pi).2 = false ∧
    (authentication request_anonymous only_pi).2 = false ∧
    on_socket (handle_client request_no_colon only_pi [] []).1 =
      [Event.send response_401, Event.close] ∧
    on_socket (handle_client request_anonymous only_pi [] []).1 =
      on_socket (handle_client request_no_colon only_pi [] []).1 :=
  ⟨by decide, by decide,
    (failures_are_answered_alike request_no_colon request_anonymous only_pi only_pi [] [] [] []
      (by decide) (by decide)).1,
    (failures_are_answered_alike request_no_colon request_anonymous only_pi only_pi [] [] [] []
      (by decide) (by decide)).2.1⟩

/-! ## `to_string` -/

theorem foldl_decimal (ds : List Nat) (a : Nat) :
    ds.foldl (fun n d => 10 * n + (d - 48)) a =
      a * 10 ^ ds.length + ds.foldl (fun n d => 10 * n + (d - 48)) 0 := by
  induction ds generalizing a with
  | nil => simp
  | cons d ds ih =>
    simp only [List.foldl_cons, List.length_cons]
    rw [ih (10 * a + (d - 48)), ih (10 * 0 + (d - 48))]
    ring

theorem digitChar_toNat (d : Nat) (h : d < 10) : (Nat.digitChar d).toNat = 48 + d := by
  interval_cases d <;> rfl

/-- The digits `Nat.toDigitsCore` puts in front of `ds` stand for `n`. -/
theorem toDigitsCore_value (fuel n : Nat) (ds : List Char) (h : n < fuel) :
    decimal_value ((Nat.toDigitsCore 10 fuel n ds).map Char.toNat) =
      n * 10 ^ ds.length + decimal_value (ds.map Char.toNat) := by
  induction fuel generalizing n ds with
  | zero => omega
  | succ fuel ih =>
    have hd := digitChar_toNat (n % 10) (Nat.mod_lt n (by decide))
    unfold Nat.toDigitsCore
    simp only
    split
    · rename_i h0
      have hn : n % 10 = n := by omega
      simp only [decimal_value, List.map_cons, List.foldl_cons, hd]
      rw [foldl_decimal]
      simp only [List.length_map, hn, Nat.add_sub_cancel_left, Nat.mul_zero, Nat.zero_add]
    · rename_i h0
      rw [ih (n / 10) _ (by omega)]
      simp only [decimal_value, List.map_cons, List.foldl_cons, hd, List.length_cons]
      rw [foldl_decimal (ds.map Char.toNat)]
      simp only [List.length_map]
      have hn : n = 10 * (n / 10) + n % 10 := (Nat.div_add_mod n 10).symm
      generalize n / 10 = q at hn ⊢
      generalize n % 10 = r at hn ⊢
      subst hn
      simp only [Nat.add_sub_cancel_left, Nat.mul_zero, Nat.zero_add, pow_succ]
      ring

/-- The text `to_string n` is a decimal numeral for `n`. -/
theorem to_string_value (n : Nat) : decimal_value (to_string n) = n := by
  unfold to_string Nat.toDigits
  rw [toDigitsCore_value (n + 1) n [] (by omega)]
  simp [decimal_value]

/-! ## C4 -/

/-- The first 32 bytes of the page response, whatever the log. -/
theorem page_response_take (logs : List Nat) :
    (page_response logs).take 32 = str "HTTP/1.1 200 OK\r\nContent-Type: t" := by
  unfold page_response
  rw [List.append_assoc, List.append_assoc, List.take_append_of_le_length (by decide)]
  decide

theorem page_response_ne_stream_header (logs : List Nat) :
    page_response logs ≠ stream_response_header := by
  intro h
  have h32 := congrArg (List.take 32) h
  rw [page_response_take] at h32
  revert h32
  decide

/-- The routing of a request whose text holds `GET /video_feed`. -/
theorem routing_stream (request logs : List Nat) (turns : List Turn)
    (hlen : request.length ≤ 4096) (h : str "GET /video_feed" <:+: request) :
    routing request logs turns =
      ([Event.send stream_response_header] ++ (stream_loop turns).1 ++
        (if (stream_loop turns).2 then [Event.close] else []), (stream_loop turns).2) := by
  have hf := find_ne_npos (str "GET /video_feed") request (by decide) hlen h
  simp [routing, hf]

/-- The routing of a request whose text does not hold `GET /video_feed`. -/
theorem routing_page (request logs : List Nat) (turns : List Turn)
    (h : ¬ str "GET /video_feed" <:+: request) :
    routing request logs turns = ([Event.send (page_response logs), Event.close], true) := by
  have hf := find_eq_npos (str "GET /video_feed") request (by decide) h
  simp [routing, hf]

set_option maxRecDepth 100000 in
/-- C4, refuted as stated, in both directions: an authenticated
`POST /video_feed` has a path that starts with `/video_feed` and gets the
landing page; an authenticated `GET /` with the text `GET /video_feed` in a
field value has the path `/` and gets the stream header (here with the
shutdown flag already set, so that the session ends at once). -/
theorem path_does_not_decide_the_route :
    str "/video_feed" <+: request_path request_post_stream ∧
    handle_client request_post_stream only_pi [] [] =
      ([Event.auth (str "pi") (str "raspberry"), Event.send (page_response []),
        Event.close], true) ∧
    request_method request_page_naming_stream = str "GET" ∧
    request_path request_page_naming_stream = str "/" ∧
    handle_client request_page_naming_stream only_pi [] [⟨false, [], 0, 0, 0⟩] =
      ([Event.auth (str "pi") (str "raspberry"), Event.send stream_response_header,
        Event.close], true) := by
  decide

/-- C4, as the code has it: an authenticated request (of at most 4096 bytes, as
the handler reads it) is handed to the stream loop, and gets the
`multipart/x-mixed-replace; boundary=frame` response header, if and only if
its text holds `GET /video_feed` somewhere; every other authenticated request
gets the landing page as its one write, and the close. -/
theorem stream_route_iff_text (request : List Nat)
    (authority : List Nat → List Nat → Bool) (logs : List Nat) (turns : List Turn)
    (hlen : request.length ≤ 4096)
    (hauth : (authentication request authority).2 = true) :
    (Event.send stream_response_header ∈ (handle_client request authority logs turns).1 ↔
      str "GET /video_feed" <:+: request) ∧
    (str "GET /video_feed" <:+: request →
      handle_client request authority logs turns =
        ((authentication request authority).1 ++
          ([Event.send stream_response_header] ++ (stream_loop turns).1 ++
            (if (stream_loop turns).2 then [Event.close] else [])),
          (stream_loop turns).2)) ∧
    (¬ str "GET /video_feed" <:+: request →
      handle_client request authority logs turns =
        ((authentication request authority).1 ++
          [Event.send (page_response logs), Event.close], true)) := by
  have hc := handle_client_authenticated request authority logs turns hauth
  have hs : str "GET /video_feed" <:+: request →
      handle_client request authority logs turns =
        ((authentication request authority).1 ++
          ([Event.send stream_response_header] ++ (stream_loop turns).1 ++
            (if (stream_loop turns).2 then [Event.close] else [])),
          (stream_loop turns).2) := by
    intro h
    rw [hc, routing_stream request logs turns hlen h]
  have hp : ¬ str "GET /video_feed" <:+: request →
      handle_client request authority logs turns =
        ((authentication request authority).1 ++
          [Event.send (page_response logs), Event.close], true) := by
    intro h
    rw [hc, routing_page request logs turns h]
  refine ⟨⟨?_, ?_⟩, hs, hp⟩
  · intro hmem
    by_contra hno
    rw [hp hno] at hmem
    simp only [List.mem_append, List.mem_cons, List.mem_singleton, List.not_mem_nil] at hmem
    rcases hmem with hmem | hmem | hmem | hmem
    · obtain ⟨u, q, he⟩ := authentication_events request authority _ hmem
      cases he
    · injection hmem with hmem
      exact page_response_ne_stream_header logs hmem.symm
    · cases hmem
    · exact hmem
  · intro h
    rw [hs h]
    simp

set_option maxRecDepth 100000 in
/-- C4 at `GET /video_feed` with the credentials of an account, the shutdown
flag already set. -/
theorem stream_route_iff_text_witness :
    request_stream.length ≤ 4096 ∧ (authentication request_stream only_pi).2 = true ∧
    (Event.send stream_response_header ∈
        (handle_client request_stream only_pi [] [⟨false, [], 0, 0, 0⟩]).1 ↔
      str "GET /video_feed" <:+: request_stream) :=
  ⟨by decide, by decide,
    (stream_route_iff_text request_stream only_pi [] [⟨false, [], 0, 0, 0⟩]
      (by decide) (by decide)).1⟩

/-! ## C6 -/

set_option maxRecDepth 100000 in
/-- C6: an authenticated request whose text does not hold `GET /video_feed`
(such as `GET /`) gets one write, then the close.  The write is the status
line `HTTP/1.1 200 OK`, the field `Content-Type: text/html`, the field
`Content-Length` with the decimal length of the body, the empty line and the
body; the body is the fixed template with the log text `logs` between its two
halves, and holds the text `/video_feed`. -/
theorem page_is_one_complete_response (request : List Nat)
    (authority : List Nat → List Nat → Bool) (logs : List Nat) (turns : List Turn)
    (hauth : (authentication request authority).2 = true)
    (hpage : ¬ str "GET /video_feed" <:+: request) :
    on_socket (handle_client request authority logs turns).1 =
      [Event.send
        (str "HTTP/1.1 200 OK\r\nContent-Type: text/html\r\nContent-Length: " ++
          to_string (html_head ++ logs ++ html_tail).length ++ str "\r\n\r\n" ++
          (html_head ++ logs ++ html_tail)),
        Event.close] ∧
    (handle_client request authority logs turns).2 = true ∧
    decimal_value (to_string (html_head ++ logs ++ html_tail).length) =
      (html_head ++ logs ++ html_tail).length ∧
    str "/video_feed" <:+: html_head ++ logs ++ html_tail ∧
    str "<img src=\x27/video_feed\x27" <:+: html_head ∧
    str "<pre>" <:+ html_head ∧ str "</pre>" <+: html_tail := by
  have hc := handle_client_authenticated request authority logs turns hauth
  rw [routing_page request logs turns hpage] at hc
  refine ⟨?_, by rw [hc], to_string_value _, ?_, by decide, by decide, by decide⟩
  · rw [hc, on_socket_append, on_socket_authentication]
    rfl
  · have h : str "/video_feed" <:+: html_head := by decide
    exact h.trans ((List.infix_append' [] html_head (logs ++ html_tail)))

set_option maxRecDepth 100000 in
/-- C6 at `GET /` with the credentials of an account and a log of one line. -/
theorem page_is_one_complete_response_witness :
    (authentication request_page only_pi).2 = true ∧
    ¬ str "GET /video_feed" <:+: request_page ∧
    (handle_client request_page only_pi (str "2024-05-01T10:00:00,1,Ana\n") []).2 = true :=
  ⟨by decide, by decide,
    (page_is_one_complete_response request_page only_pi (str "2024-05-01T10:00:00,1,Ana\n") []
      (by decide) (by decide)).2.1⟩

/-! ## C7 -/

/-- C7, refuted as stated: a cycle whose encoder fails and leaves no bytes
empties the shared buffer that held `frame_a`. -/
theorem failed_encode_drops_the_frame :
    capture_cycle ⟨false, false, []⟩ frame_a = [] ∧
    capture_cycle ⟨false, false, []⟩ frame_a ≠ frame_a ∧
    snapshot (capture_cycle ⟨false, false, []⟩ frame_a) = [] := by
  decide

/-- C7, as the code has it: a cycle that captured a frame publishes whatever the
encoder left in `buf`, its return value unread.  When the encoder fails and
leaves no bytes, the shared buffer is empty after the cycle, whatever it held
before, and a pass of the stream loop that finds it so writes nothing: it
sleeps 10 ms and tries again. -/
theorem failed_encode_is_published (c : Capture) (prior : List Nat) (t : Turn)
    (hframe : c.frame_empty = false) (_hfail : c.encoded = false) (hbuf : c.buf = [])
    (hseen : t.global_jpeg = capture_cycle c prior) :
    capture_cycle c prior = [] ∧
    stream_pass t = ([Event.lock, Event.sleep 10, Event.unlock], true) ∧
    sent (stream_pass t).1 = [] := by
  have h : capture_cycle c prior = [] := by simp [capture_cycle, hframe, hbuf]
  have hp : stream_pass t = ([Event.lock, Event.sleep 10, Event.unlock], true) := by
    simp [stream_pass, hseen, h]
  exact ⟨h, hp, by rw [hp]; rfl⟩

/-- C7 at a failed encode over a buffer that held `frame_a`. -/
theorem failed_encode_is_published_witness :
    capture_cycle ⟨false, false, []⟩ frame_a = [] ∧
    stream_pass ⟨true, capture_cycle ⟨false, false, []⟩ frame_a, 0, 0, 0⟩ =
      ([Event.lock, Event.sleep 10, Event.unlock], true) :=
  ⟨(failed_encode_is_published ⟨false, false, []⟩ frame_a
      ⟨true, capture_cycle ⟨false, false, []⟩ frame_a, 0, 0, 0⟩ rfl rfl rfl rfl).1,
    (failed_encode_is_published ⟨false, false, []⟩ frame_a
      ⟨true, capture_cycle ⟨false, false, []⟩ frame_a, 0, 0, 0⟩ rfl rfl rfl rfl).2.1⟩

/-! ## C8 -/

set_option maxRecDepth 100000 in
/-- C9 at a stream session that finds the shared buffer empty: the pass takes
the mutex, sleeps 10 ms and only then gives the mutex back, so the session
sleeps while it holds the lock. -/
theorem backoff_sleep_holds_the_lock :
    handle_client request_stream only_pi [] [⟨true, [], 0, 0, 0⟩] =
      ([Event.auth (str "pi") (str "raspberry"), Event.send stream_response_header,
        Event.lock, Event.sleep 10, Event.unlock], false) ∧
    lock_only_for_copy false
      (handle_client request_stream only_pi [] [⟨true, [], 0, 0, 0⟩]).1 = false := by
  decide

/-! ## The stream loop -/

/-- A pass that finds a frame and whose three writes succeed. -/
theorem stream_pass_complete (t : Turn) (hframe : t.global_jpeg ≠ [])
    (h₁ : 0 ≤ t.sent_header) (h₂ : 0 ≤ t.sent_jpeg) (h₃ : 0 ≤ t.sent_crlf) :
    stream_pass t =
      ([Event.lock, Event.unlock, Event.send (part_header t.global_jpeg.length),
        Event.send t.global_jpeg, Event.send (str "\r\n"), Event.sleep 100], true) := by
  simp [stream_pass, hframe, Int.not_lt.2 h₁, Int.not_lt.2 h₂, Int.not_lt.2 h₃]

/-- A pass that finds the shared buffer empty. -/
theorem stream_pass_empty (t : Turn) (hframe : t.global_jpeg = []) :
    stream_pass t = ([Event.lock, Event.sleep 10, Event.unlock], true) := by
  simp [stream_pass, hframe]

/-- A pass that finds a frame and has a failing write stops behind the first
write that fails. -/
theorem stream_pass_failing (t : Turn) (hframe : t.global_jpeg ≠ [])
    (hfail : t.sent_header < 0 ∨ t.sent_jpeg < 0 ∨ t.sent_crlf < 0) :
    stream_pass t =
      (Event.lock :: Event.unlock ::
        ((part t.global_jpeg).take
          (if t.sent_header < 0 then 1 else if t.sent_jpeg < 0 then 2 else 3)).map Event.send,
        false) := by
  by_cases h₁ : t.sent_header < 0
  · simp [stream_pass, hframe, h₁, part]
  · by_cases h₂ : t.sent_jpeg < 0
    · simp [stream_pass, hframe, h₁, h₂, part]
    · have h₃ : t.sent_crlf < 0 := by tauto
      simp [stream_pass, hframe, h₁, h₂, h₃, part]

/-- A pass goes on exactly when it found no frame or all its writes succeeded. -/
theorem stream_pass_goes_on (t : Turn)
    (h : t.global_jpeg = [] ∨ (0 ≤ t.sent_header ∧ 0 ≤ t.sent_jpeg ∧ 0 ≤ t.sent_crlf)) :
    (stream_pass t).2 = true := by
  by_cases hframe : t.global_jpeg = []
  · rw [stream_pass_empty t hframe]
  · rcases h with h | ⟨h₁, h₂, h₃⟩
    · exact absurd h hframe
    · rw [stream_pass_complete t hframe h₁ h₂ h₃]

/-- The loop over turns that all go on, followed by more turns. -/
theorem stream_loop_append (before rest : List Turn)
    (hbefore : ∀ b ∈ before, b.keep_running = true ∧ (stream_pass b).2 = true) :
    stream_loop (before ++ rest) =
      (before.flatMap (fun b => (stream_pass b).1) ++ (stream_loop rest).1,
        (stream_loop rest).2) := by
  induction before with
  | nil => simp
  | cons b bs ih =>
    have hb := hbefore b (by simp)
    have ih' := ih (fun x hx => hbefore x (by simp [hx]))
    simp [stream_loop, hb.1, hb.2, ih']

/-- No pass of the stream loop closes the socket or calls the login service. -/
theorem stream_pass_count_close (t : Turn) : (stream_pass t).1.count Event.close = 0 := by
  unfold stream_pass
  simp only
  split
  · decide
  · split
    · simp [List.count_cons]
    · split
      · simp [List.count_cons]
      · split <;> simp [List.count_cons]

theorem authentication_count_close (request : List Nat)
    (authority : List Nat → List Nat → Bool) :
    (authentication request authority).1.count Event.close = 0 := by
  rw [List.count_eq_zero]
  intro hmem
  obtain ⟨u, q, he⟩ := authentication_events request authority _ hmem
  cases he

theorem flatMap_count_close (turns : List Turn) :
    (turns.flatMap (fun b => (stream_pass b).1)).count Event.close = 0 := by
  induction turns with
  | nil => rfl
  | cons b bs ih => simp [List.flatMap_cons, List.count_append, stream_pass_count_close, ih]

/-! ## C10 -/

/-- C10: in a stream session that reaches the turn `t` (the turns before it all
went on), finds a frame there and has one of the three writes of the part fail,
the pass issues the writes in the order header block, frame bytes, trailing
line end, up to and including the first that fails, and nothing after it: no
further write and no sleep.  The loop is left in that pass whatever turns would
follow, the socket is closed, the handler returns, and the close is the only
one of the run. -/
theorem failed_write_ends_the_session (request : List Nat)
    (authority : List Nat → List Nat → Bool) (logs : List Nat)
    (before : List Turn) (t : Turn) (after : List Turn)
    (hlen : request.length ≤ 4096)
    (hauth : (authentication request authority).2 = true)
    (hstream : str "GET /video_feed" <:+: request)
    (hbefore : ∀ b ∈ before, b.keep_running = true ∧
      (b.global_jpeg = [] ∨ (0 ≤ b.sent_header ∧ 0 ≤ b.sent_jpeg ∧ 0 ≤ b.sent_crlf)))
    (hrun : t.keep_running = true) (hframe : t.global_jpeg ≠ [])
    (hfail : t.sent_header < 0 ∨ t.sent_jpeg < 0 ∨ t.sent_crlf < 0) :
    stream_pass t =
      (Event.lock :: Event.unlock ::
        ((part t.global_jpeg).take
          (if t.sent_header < 0 then 1 else if t.sent_jpeg < 0 then 2 else 3)).map Event.send,
        false) ∧
    handle_client request authority logs (before ++ t :: after) =
      ((authentication request authority).1 ++
        ([Event.send stream_response_header] ++
          (before.flatMap (fun b => (stream_pass b).1) ++ (stream_pass t).1) ++
          [Event.close]), true) ∧
    (handle_client request authority logs (before ++ t :: after)).1.count Event.close = 1 := by
  have hp := stream_pass_failing t hframe hfail
  have hloop : stream_loop (before ++ t :: after) =
      (before.flatMap (fun b => (stream_pass b).1) ++ (stream_pass t).1, true) := by
    rw [stream_loop_append before (t :: after)
      (fun b hb => ⟨(hbefore b hb).1, stream_pass_goes_on b (hbefore b hb).2⟩)]
    have h2 : (stream_pass t).2 = false := by rw [hp]
    simp [stream_loop, hrun, h2]
  have hc : handle_client request authority logs (before ++ t :: after) =
      ((authentication request authority).1 ++
        ([Event.send stream_response_header] ++
          (before.flatMap (fun b => (stream_pass b).1) ++ (stream_pass t).1) ++
          [Event.close]), true) := by
    rw [handle_client_authenticated request authority logs _ hauth,
      routing_stream request logs _ hlen hstream, hloop]
    simp
  refine ⟨hp, hc, ?_⟩
  rw [hc]
  simp only [List.count_append, authentication_count_close, flatMap_count_close,
    stream_pass_count_close]
  decide

set_option maxRecDepth 100000 in
/-- C10 at a session whose first pass finds no frame, whose second sends
`frame_a` and whose third fails on the frame bytes of `frame_b`; a fourth
turn is never looked at. -/
theorem failed_write_ends_the_session_witness :
    request_stream.length ≤ 4096 ∧ (authentication request_stream only_pi).2 = true ∧
    str "GET /video_feed" <:+: request_stream ∧
    handle_client request_stream only_pi []
        ([⟨true, [], 0, 0, 0⟩, ⟨true, frame_a, 60, 4, 2⟩] ++ ⟨true, frame_b, 60, -1, 0⟩ ::
          [⟨true, frame_a, 60, 4, 2⟩]) =
      ((authentication request_stream only_pi).1 ++
        ([Event.send stream_response_header] ++
          (([⟨true, [], 0, 0, 0⟩, ⟨true, frame_a, 60, 4, 2⟩] : List Turn).flatMap
              (fun b => (stream_pass b).1) ++
            (stream_pass ⟨true, frame_b, 60, -1, 0⟩).1) ++
          [Event.close]), true) :=
  ⟨by decide, by decide, by decide,
    (failed_write_ends_the_session request_stream only_pi []
      [⟨true, [], 0, 0, 0⟩, ⟨true, frame_a, 60, 4, 2⟩] ⟨true, frame_b, 60, -1, 0⟩
      [⟨true, frame_a, 60, 4, 2⟩] (by decide) (by decide) (by decide) (by decide) (by decide)
      (by decide) (by decide)).2.1⟩

/-! ## C5 -/

theorem sent_stream_pass_complete (t : Turn) (hframe : t.global_jpeg ≠ [])
    (h₁ : 0 ≤ t.sent_header) (h₂ : 0 ≤ t.sent_jpeg) (h₃ : 0 ≤ t.sent_crlf) :
    sent (stream_pass t).1 = part t.global_jpeg := by
  rw [stream_pass_complete t hframe h₁ h₂ h₃]
  rfl

/-- What a pass hands to `send`: nothing, or the buffers of one part up to the
first write that fails. -/
theorem sent_stream_pass (t : Turn) :
    (t.global_jpeg = [] ∧ sent (stream_pass t).1 = []) ∨
    (t.global_jpeg ≠ [] ∧ (stream_pass t).2 = true ∧
      sent (stream_pass t).1 = part t.global_jpeg) ∨
    (t.global_jpeg ≠ [] ∧ (stream_pass t).2 = false ∧
      ∃ k, 0 < k ∧ sent (stream_pass t).1 = (part t.global_jpeg).take k) := by
  by_cases hframe : t.global_jpeg = []
  · left
    exact ⟨hframe, by rw [stream_pass_empty t hframe]; rfl⟩
  · right
    by_cases hfail : t.sent_header < 0 ∨ t.sent_jpeg < 0 ∨ t.sent_crlf < 0
    · right
      refine ⟨hframe, by rw [stream_pass_failing t hframe hfail], ?_⟩
      by_cases h₁ : t.sent_header < 0
      · exact ⟨1, by decide, by simp [stream_pass, hframe, h₁, part, sent]⟩
      · by_cases h₂ : t.sent_jpeg < 0
        · exact ⟨2, by decide, by simp [stream_pass, hframe, h₁, h₂, part, sent]⟩
        · have h₃ : t.sent_crlf < 0 := by tauto
          exact ⟨3, by decide, by simp [stream_pass, hframe, h₁, h₂, h₃, part, sent]⟩
    · left
      have h₁ : 0 ≤ t.sent_header := by
        by_contra h; exact hfail (Or.inl (by omega))
      have h₂ : 0 ≤ t.sent_jpeg := by
        by_contra h; exact hfail (Or.inr (Or.inl (by omega)))
      have h₃ : 0 ≤ t.sent_crlf := by
        by_contra h; exact hfail (Or.inr (Or.inr (by omega)))
      exact ⟨hframe, by rw [stream_pass_complete t hframe h₁ h₂ h₃],
        sent_stream_pass_complete t hframe h₁ h₂ h₃⟩

/-- What the stream loop hands to `send`: the buffers of whole parts, one part
per frame, and behind them at most one part cut short by a failing write. -/
theorem sent_stream_loop (turns : List Turn) :
    ∃ (frames : List (List Nat)) (last : List Nat) (k : Nat),
      (∀ current_jpeg ∈ frames, current_jpeg ≠ []) ∧
      sent (stream_loop turns).1 = frames.flatMap part ++ (part last).take k := by
  induction turns with
  | nil => exact ⟨[], [], 0, by simp, rfl⟩
  | cons t ts ih =>
    obtain ⟨frames, last, k, hne, hs⟩ := ih
    by_cases hrun : t.keep_running = true
    · rcases sent_stream_pass t with ⟨_, h⟩ | ⟨hframe, hgo, h⟩ | ⟨hframe, hgo, k', _, h⟩
      · refine ⟨frames, last, k, hne, ?_⟩
        by_cases hgo : (stream_pass t).2 = true
        · simp [stream_loop, hrun, hgo, sent_append, h, hs]
        · have := stream_pass_goes_on t (Or.inl (by tauto))
          exact absurd this hgo
      · refine ⟨t.global_jpeg :: frames, last, k, ?_, ?_⟩
        · intro f hf
          rcases List.mem_cons.1 hf with rfl | hf
          · exact hframe
          · exact hne f hf
        · simp [stream_loop, hrun, hgo, sent_append, h, hs]
      · exact ⟨[], t.global_jpeg, k', by simp, by simp [stream_loop, hrun, hgo, h]⟩
    · exact ⟨[], [], 0, by simp, by simp [stream_loop, hrun, sent]⟩

/-- The bytes the stream loop writes, if any, start with the head of a part. -/
theorem stream_body_start (turns : List Turn) :
    (sent (stream_loop turns).1).flatten = [] ∨
    str "--frame\r\nContent-Type: image/jpeg\r\nContent-Length:" <+:
      (sent (stream_loop turns).1).flatten := by
  have hlit : ∀ (n : Nat) (rest : List Nat),
      str "--frame\r\nContent-Type: image/jpeg\r\nContent-Length:" <+:
        part_header n ++ rest := by
    intro n rest
    have h : str "--frame\r\nContent-Type: image/jpeg\r\nContent-Length:" <+:
        str "--frame\r\nContent-Type: image/jpeg\r\nContent-Length: " := by decide
    unfold part_header
    rw [List.append_assoc, List.append_assoc]
    exact h.trans (List.prefix_append _ _)
  obtain ⟨frames, last, k, _, hs⟩ := sent_stream_loop turns
  rw [hs]
  cases frames with
  | nil =>
    cases k with
    | zero => left; simp
    | succ k =>
      right
      simp only [List.flatMap_nil, List.nil_append, part, List.take_succ_cons,
        List.flatten_cons]
      exact hlit _ _
  | cons f fs =>
    right
    simp only [List.flatMap_cons, part, List.cons_append, List.flatten_cons]
    exact hlit _ _

/-- The head of a part starts with its fixed text. -/
theorem part_header_start (n : Nat) (rest : List Nat) :
    str "--frame\r\nContent-Type: image/jpeg\r\nContent-Length:" <+:
      part_header n ++ rest := by
  have h : str "--frame\r\nContent-Type: image/jpeg\r\nContent-Length:" <+:
      str "--frame\r\nContent-Type: image/jpeg\r\nContent-Length: " := by decide
  unfold part_header
  rw [List.append_assoc, List.append_assoc]
  exact h.trans (List.prefix_append _ _)

/-- What passes that all go on hand to `send`: one whole part for each of them
that found a frame, in order. -/
theorem sent_passes (before : List Turn)
    (hbefore : ∀ b ∈ before,
      b.global_jpeg = [] ∨ (0 ≤ b.sent_header ∧ 0 ≤ b.sent_jpeg ∧ 0 ≤ b.sent_crlf)) :
    sent (before.flatMap (fun b => (stream_pass b).1)) =
      ((before.map Turn.global_jpeg).filter (fun f => !f.isEmpty)).flatMap part := by
  induction before with
  | nil => rfl
  | cons b bs ih =>
    have ih' := ih (fun x hx => hbefore x (List.mem_cons_of_mem _ hx))
    rw [List.flatMap_cons, sent_append, ih', List.map_cons]
    by_cases hframe : b.global_jpeg = []
    · rw [stream_pass_empty b hframe, hframe]
      rfl
    · rcases hbefore b (List.mem_cons_self _ _) with h | ⟨h₁, h₂, h₃⟩
      · exact absurd h hframe
      · have hne : (!b.global_jpeg.isEmpty) = true := by simpa using hframe
        rw [sent_stream_pass_complete b hframe h₁ h₂ h₃]
        simp only [List.filter_cons, hne, if_true, List.flatMap_cons]

/-- The stream loop at a turn with a frame whose three writes succeed, reached
over turns that all went on. -/
theorem stream_loop_at_frame (before : List Turn) (t : Turn) (after : List Turn)
    (hbefore : ∀ b ∈ before, b.keep_running = true ∧
      (b.global_jpeg = [] ∨ (0 ≤ b.sent_header ∧ 0 ≤ b.sent_jpeg ∧ 0 ≤ b.sent_crlf)))
    (hrun : t.keep_running = true) (hframe : t.global_jpeg ≠ [])
    (h₁ : 0 ≤ t.sent_header) (h₂ : 0 ≤ t.sent_jpeg) (h₃ : 0 ≤ t.sent_crlf) :
    stream_loop (before ++ t :: after) =
      (before.flatMap (fun b => (stream_pass b).1) ++
        ([Event.lock, Event.unlock, Event.send (part_header t.global_jpeg.length),
          Event.send t.global_jpeg, Event.send (str "\r\n"), Event.sleep 100] ++
          (stream_loop after).1), (stream_loop after).2) := by
  rw [stream_loop_append before (t :: after)
    (fun b hb => ⟨(hbefore b hb).1, stream_pass_goes_on b (hbefore b hb).2⟩)]
  have hp := stream_pass_complete t hframe h₁ h₂ h₃
  have hloop : stream_loop (t :: after) =
      ((stream_pass t).1 ++ (stream_loop after).1, (stream_loop after).2) := by
    have h2 : (stream_pass t).2 = true := by rw [hp]
    simp [stream_loop, hrun, h2]
  rw [hloop, hp]

/-- C5: take a stream session (an authenticated request of at most 4096 bytes
whose text holds `GET /video_feed`) that reaches the turn `t` over turns that
all went on, finds the non-empty frame `t.global_jpeg` there, and whose three
writes of that pass succeed.  Then the run is the response header, the passes
before `t`, then for `t`: lock, unlock, the write of
`--frame\r\nContent-Type: image/jpeg\r\nContent-Length: ` ++ the decimal
numeral of the length of the frame ++ `\r\n\r\n`, the write of the frame, the
write of `\r\n`, the 100 ms sleep, and then the rest of the loop.  The buffers
written behind the response header are one such whole part for every earlier
pass that found a frame, then the part of `t`, then what the rest of the loop
writes; the three buffers of the part of `t` put together are exactly header
block, frame, `\r\n`; and the bytes written behind the response header start
with `--frame\r\nContent-Type: image/jpeg\r\nContent-Length:`.  In every run of
the loop, whatever the turns, what is written is whole parts of that form for
non-empty frames, then at most one part cut short by a failing write. -/
theorem part_is_header_frame_line_end (request : List Nat)
    (authority : List Nat → List Nat → Bool) (logs : List Nat)
    (before : List Turn) (t : Turn) (after : List Turn)
    (hlen : request.length ≤ 4096)
    (hauth : (authentication request authority).2 = true)
    (hstream : str "GET /video_feed" <:+: request)
    (hbefore : ∀ b ∈ before, b.keep_running = true ∧
      (b.global_jpeg = [] ∨ (0 ≤ b.sent_header ∧ 0 ≤ b.sent_jpeg ∧ 0 ≤ b.sent_crlf)))
    (hrun : t.keep_running = true) (hframe : t.global_jpeg ≠ [])
    (h₁ : 0 ≤ t.sent_header) (h₂ : 0 ≤ t.sent_jpeg) (h₃ : 0 ≤ t.sent_crlf) :
    (handle_client request authority logs (before ++ t :: after)).1 =
      (authentication request authority).1 ++
        ([Event.send stream_response_header] ++
          (before.flatMap (fun b => (stream_pass b).1) ++
            ([Event.lock, Event.unlock,
              Event.send (str "--frame\r\nContent-Type: image/jpeg\r\nContent-Length: " ++
                to_string t.global_jpeg.length ++ str "\r\n\r\n"),
              Event.send t.global_jpeg, Event.send (str "\r\n"), Event.sleep 100] ++
              (stream_loop after).1)) ++
          (if (stream_loop after).2 then [Event.close] else [])) ∧
    sent (handle_client request authority logs (before ++ t :: after)).1 =
      stream_response_header ::
        (((before.map Turn.global_jpeg).filter (fun f => !f.isEmpty)).flatMap
            (fun current_jpeg =>
              [str "--frame\r\nContent-Type: image/jpeg\r\nContent-Length: " ++
                to_string current_jpeg.length ++ str "\r\n\r\n", current_jpeg, str "\r\n"]) ++
          ([str "--frame\r\nContent-Type: image/jpeg\r\nContent-Length: " ++
              to_string t.global_jpeg.length ++ str "\r\n\r\n", t.global_jpeg, str "\r\n"] ++
            sent (stream_loop after).1)) ∧
    ([str "--frame\r\nContent-Type: image/jpeg\r\nContent-Length: " ++
        to_string t.global_jpeg.length ++ str "\r\n\r\n", t.global_jpeg, str "\r\n"]).flatten =
      str "--frame\r\nContent-Type: image/jpeg\r\nContent-Length: " ++
        to_string t.global_jpeg.length ++ str "\r\n\r\n" ++ t.global_jpeg ++ str "\r\n" ∧
    decimal_value (to_string t.global_jpeg.length) = t.global_jpeg.length ∧
    str "--frame\r\nContent-Type: image/jpeg\r\nContent-Length:" <+:
      ((sent (handle_client request authority logs (before ++ t :: after)).1).drop 1).flatten ∧
    (∀ turns : List Turn, ∃ (frames : List (List Nat)) (last : List Nat) (k : Nat),
      (∀ current_jpeg ∈ frames, current_jpeg ≠ []) ∧
      sent (stream_loop turns).1 =
        frames.flatMap
            (fun current_jpeg =>
              [str "--frame\r\nContent-Type: image/jpeg\r\nContent-Length: " ++
                to_string current_jpeg.length ++ str "\r\n\r\n", current_jpeg, str "\r\n"]) ++
          ([str "--frame\r\nContent-Type: image/jpeg\r\nContent-Length: " ++
              to_string last.length ++ str "\r\n\r\n", last, str "\r\n"]).take k) := by
  have hloop := stream_loop_at_frame before t after hbefore hrun hframe h₁ h₂ h₃
  have hc : (handle_client request authority logs (before ++ t :: after)).1 =
      (authentication request authority).1 ++
        ([Event.send stream_response_header] ++
          (before.flatMap (fun b => (stream_pass b).1) ++
            ([Event.lock, Event.unlock, Event.send (part_header t.global_jpeg.length),
              Event.send t.global_jpeg, Event.send (str "\r\n"), Event.sleep 100] ++
              (stream_loop after).1)) ++
          (if (stream_loop after).2 then [Event.close] else [])) := by
    rw [handle_client_authenticated request authority logs _ hauth,
      routing_stream request logs _ hlen hstream, hloop]
  have hclose : sent (if (stream_loop after).2 then [Event.close] else []) = [] := by
    split <;> rfl
  have hs : sent (handle_client request authority logs (before ++ t :: after)).1 =
      stream_response_header ::
        (((before.map Turn.global_jpeg).filter (fun f => !f.isEmpty)).flatMap part ++
          (part t.global_jpeg ++ sent (stream_loop after).1)) := by
    rw [hc]
    simp only [sent_append, sent_authentication, List.nil_append, hclose, List.append_nil,
      sent_passes before (fun b hb => (hbefore b hb).2)]
    rfl
  refine ⟨hc, hs, ?_, to_string_value _, ?_, ?_⟩
  · simp only [List.flatten_cons, List.flatten_nil, List.append_nil, List.append_assoc]
  · rw [hs, List.drop_one, List.tail_cons]
    cases hf : (before.map Turn.global_jpeg).filter (fun f => !f.isEmpty) with
    | nil =>
      simp only [List.flatMap_nil, List.nil_append, part, List.cons_append, List.flatten_cons]
      exact part_header_start _ _
    | cons f fs =>
      simp only [List.flatMap_cons, part, List.cons_append, List.flatten_cons]
      exact part_header_start _ _
  · intro turns
    exact sent_stream_loop turns

set_option maxRecDepth 100000 in
/-- C5 at a session whose first pass finds no frame, whose second sends
`frame_a` and whose third sees the shutdown flag. -/
theorem part_is_header_frame_line_end_witness :
    request_stream.length ≤ 4096 ∧ (authentication request_stream only_pi).2 = true ∧
    str "GET /video_feed" <:+: request_stream ∧
    handle_client request_stream only_pi []
        ([⟨true, [], 0, 0, 0⟩] ++ ⟨true, frame_a, 60, 4, 2⟩ :: [⟨false, [], 0, 0, 0⟩]) =
      ([Event.auth (str "pi") (str "raspberry"), Event.send stream_response_header,
        Event.lock, Event.sleep 10, Event.unlock, Event.lock, Event.unlock,
        Event.send (str "--frame\r\nContent-Type: image/jpeg\r\nContent-Length: 4\r\n\r\n"),
        Event.send frame_a, Event.send (str "\r\n"), Event.sleep 100, Event.close], true) ∧
    sent (handle_client request_stream only_pi []
        ([⟨true, [], 0, 0, 0⟩] ++ ⟨true, frame_a, 60, 4, 2⟩ :: [⟨false, [], 0, 0, 0⟩])).1 =
      [stream_response_header,
        str "--frame\r\nContent-Type: image/jpeg\r\nContent-Length: 4\r\n\r\n", frame_a,
        str "\r\n"] ∧
    str "--frame\r\nContent-Type: image/jpeg\r\nContent-Length:" <+:
      ((sent (handle_client request_stream only_pi []
        ([⟨true, [], 0, 0, 0⟩] ++ ⟨true, frame_a, 60, 4, 2⟩ ::
          [⟨false, [], 0, 0, 0⟩])).1).drop 1).flatten :=
  ⟨by decide, by decide, by decide, by decide,
    (part_is_header_frame_line_end request_stream only_pi [] [⟨true, [], 0, 0, 0⟩]
      ⟨true, frame_a, 60, 4, 2⟩ [⟨false, [], 0, 0, 0⟩] (by decide) (by decide) (by decide)
      (by decide) (by decide) (by decide) (by decide) (by decide) (by decide)).2.1,
    (part_is_header_frame_line_end request_stream only_pi [] [⟨true, [], 0, 0, 0⟩]
      ⟨true, frame_a, 60, 4, 2⟩ [⟨false, [], 0, 0, 0⟩] (by decide) (by decide) (by decide)
      (by decide) (by decide) (by decide) (by decide) (by decide) (by decide)).2.2.2.2.1⟩

/-! ## `base64_decode` undoes the standard encoding -/

/-- The table sends the `i`-th character of the alphabet to `i`. -/
theorem table_at_alphabet : ∀ i, i < 64 → table_at (base64_alphabet.getD i 0) = (i : Int) := by
  decide

theorem table_at_pad : table_at 61 = -1 := by decide

/-- One round of the loop of `base64_decode` on a character of the alphabet. -/
theorem decode_step (c : Nat) (cs : List Nat) (val valb : Int) (out : List Nat)
    (h : table_at c ≠ -1) :
    base64_decode_loop (c :: cs) val valb out =
      if 0 ≤ valb + 6 then
        base64_decode_loop cs (wrap_int32 (val * 64) + table_at c) (valb + 6 - 8)
          (out ++ [(((wrap_int32 (val * 64) + table_at c) / 2 ^ (valb + 6).toNat) % 256).toNat])
      else base64_decode_loop cs (wrap_int32 (val * 64) + table_at c) (valb + 6) out := by
  rw [base64_decode_loop]
  simp [h]

/-- The loop stops at the end of the input and at a character outside the
alphabet. -/
theorem decode_stop (tail : List Nat) (val valb : Int) (out : List Nat)
    (h : tail = [] ∨ ∃ c cs, tail = c :: cs ∧ table_at c = -1) :
    base64_decode_loop tail val valb out = out := by
  rcases h with rfl | ⟨c, cs, rfl, hc⟩
  · rw [base64_decode_loop]
  · rw [base64_decode_loop]
    simp [hc]

theorem decode_step_alphabet (i : Nat) (hi : i < 64) (cs : List Nat) (val valb : Int)
    (out : List Nat) :
    base64_decode_loop (base64_alphabet.getD i 0 :: cs) val valb out =
      if 0 ≤ valb + 6 then
        base64_decode_loop cs (wrap_int32 (val * 64) + (i : Int)) (valb + 6 - 8)
          (out ++ [(((wrap_int32 (val * 64) + (i : Int)) / 2 ^ (valb + 6).toNat) % 256).toNat])
      else base64_decode_loop cs (wrap_int32 (val * 64) + (i : Int)) (valb + 6) out := by
  rw [decode_step _ _ _ _ _ (by rw [table_at_alphabet i hi]; omega), table_at_alphabet i hi]

theorem decode_step_first (i : Nat) (hi : i < 64) (cs : List Nat) (val : Int)
    (out : List Nat) :
    base64_decode_loop (base64_alphabet.getD i 0 :: cs) val (-8) out =
      base64_decode_loop cs (wrap_int32 (val * 64) + (i : Int)) (-2) out := by
  rw [decode_step_alphabet i hi]
  rfl

theorem decode_step_second (i : Nat) (hi : i < 64) (cs : List Nat) (val : Int)
    (out : List Nat) :
    base64_decode_loop (base64_alphabet.getD i 0 :: cs) val (-2) out =
      base64_decode_loop cs (wrap_int32 (val * 64) + (i : Int)) (-4)
        (out ++ [(((wrap_int32 (val * 64) + (i : Int)) / 16) % 256).toNat]) := by
  rw [decode_step_alphabet i hi]
  rfl

theorem decode_step_third (i : Nat) (hi : i < 64) (cs : List Nat) (val : Int)
    (out : List Nat) :
    base64_decode_loop (base64_alphabet.getD i 0 :: cs) val (-4) out =
      base64_decode_loop cs (wrap_int32 (val * 64) + (i : Int)) (-6)
        (out ++ [(((wrap_int32 (val * 64) + (i : Int)) / 4) % 256).toNat]) := by
  rw [decode_step_alphabet i hi]
  rfl

theorem decode_step_fourth (i : Nat) (hi : i < 64) (cs : List Nat) (val : Int)
    (out : List Nat) :
    base64_decode_loop (base64_alphabet.getD i 0 :: cs) val (-6) out =
      base64_decode_loop cs (wrap_int32 (val * 64) + (i : Int)) (-8)
        (out ++ [(((wrap_int32 (val * 64) + (i : Int)) / 1) % 256).toNat]) := by
  rw [decode_step_alphabet i hi]
  rfl

/-- Four characters that encode three bytes: the loop appends the three bytes
and is back at `valb = -8`. -/
theorem decode_three (a b c : Nat) (ha : a < 256) (hb : b < 256) (hc : c < 256)
    (cs : List Nat) (val : Int) (out : List Nat) :
    ∃ val1 : Int,
      base64_decode_loop
        (base64_alphabet.getD (a / 4) 0 :: base64_alphabet.getD (a % 4 * 16 + b / 16) 0 ::
          base64_alphabet.getD (b % 16 * 4 + c / 64) 0 :: base64_alphabet.getD (c % 64) 0 :: cs)
        val (-8) out =
      base64_decode_loop cs val1 (-8) (out ++ [a, b, c]) := by
  rw [decode_step_first _ (by omega), decode_step_second _ (by omega),
    decode_step_third _ (by omega), decode_step_fourth _ (by omega)]
  have h₁ : ((wrap_int32 ((wrap_int32 (val * 64) + ((a / 4 : Nat) : Int)) * 64) +
      ((a % 4 * 16 + b / 16 : Nat) : Int)) / 16 % 256).toNat = a := by
    simp only [wrap_int32]
    omega
  have h₂ : ((wrap_int32 ((wrap_int32 ((wrap_int32 (val * 64) + ((a / 4 : Nat) : Int)) * 64) +
      ((a % 4 * 16 + b / 16 : Nat) : Int)) * 64) + ((b % 16 * 4 + c / 64 : Nat) : Int)) / 4 %
      256).toNat = b := by
    simp only [wrap_int32]
    omega
  have h₃ : ((wrap_int32 ((wrap_int32 ((wrap_int32 ((wrap_int32 (val * 64) +
      ((a / 4 : Nat) : Int)) * 64) + ((a % 4 * 16 + b / 16 : Nat) : Int)) * 64) +
      ((b % 16 * 4 + c / 64 : Nat) : Int)) * 64) + ((c % 64 : Nat) : Int)) / 1 % 256).toNat =
      c := by
    simp only [wrap_int32]
    omega
  rw [h₁, h₂, h₃, List.append_assoc, List.append_assoc]
  exact ⟨_, rfl⟩

/-- Two characters and the padding `==` that encode one byte. -/
theorem decode_one (a : Nat) (ha : a < 256) (cs : List Nat) (val : Int) (out : List Nat) :
    base64_decode_loop
      (base64_alphabet.getD (a / 4) 0 :: base64_alphabet.getD (a % 4 * 16) 0 :: 61 :: cs)
      val (-8) out = out ++ [a] := by
  rw [decode_step_first _ (by omega), decode_step_second _ (by omega),
    decode_stop _ _ _ _ (Or.inr ⟨61, cs, rfl, table_at_pad⟩)]
  have h₁ : ((wrap_int32 ((wrap_int32 (val * 64) + ((a / 4 : Nat) : Int)) * 64) +
      ((a % 4 * 16 : Nat) : Int)) / 16 % 256).toNat = a := by
    simp only [wrap_int32]
    omega
  rw [h₁]

/-- Three characters and the padding `=` that encode two bytes. -/
theorem decode_two (a b : Nat) (ha : a < 256) (hb : b < 256) (cs : List Nat) (val : Int)
    (out : List Nat) :
    base64_decode_loop
      (base64_alphabet.getD (a / 4) 0 :: base64_alphabet.getD (a % 4 * 16 + b / 16) 0 ::
        base64_alphabet.getD (b % 16 * 4) 0 :: 61 :: cs)
      val (-8) out = out ++ [a, b] := by
  rw [decode_step_first _ (by omega), decode_step_second _ (by omega),
    decode_step_third _ (by omega),
    decode_stop _ _ _ _ (Or.inr ⟨61, cs, rfl, table_at_pad⟩)]
  have h₁ : ((wrap_int32 ((wrap_int32 (val * 64) + ((a / 4 : Nat) : Int)) * 64) +
      ((a % 4 * 16 + b / 16 : Nat) : Int)) / 16 % 256).toNat = a := by
    simp only [wrap_int32]
    omega
  have h₂ : ((wrap_int32 ((wrap_int32 ((wrap_int32 (val * 64) + ((a / 4 : Nat) : Int)) * 64) +
      ((a % 4 * 16 + b / 16 : Nat) : Int)) * 64) + ((b % 16 * 4 : Nat) : Int)) / 4 %
      256).toNat = b := by
    simp only [wrap_int32]
    omega
  rw [h₁, h₂, List.append_assoc]
  rfl

/-- The loop of `base64_decode`, started at `valb = -8` on the standard encoding
of `bs` followed by the end of the input or by a character outside the
alphabet, appends `bs` to `out`. -/
theorem decode_loop_encode : ∀ (bs : List Nat), (∀ x ∈ bs, x < 256) →
    ∀ (tail : List Nat) (val : Int) (out : List Nat),
      (tail = [] ∨ ∃ c cs, tail = c :: cs ∧ table_at c = -1) →
      base64_decode_loop (base64_encode bs ++ tail) val (-8) out = out ++ bs
  | [], _, tail, val, out, htail => by
    simp only [base64_encode, List.nil_append, List.append_nil]
    exact decode_stop tail val (-8) out htail
  | [a], h, tail, val, out, _ => by
    simp only [base64_encode, List.cons_append, List.nil_append]
    exact decode_one a (h a (by simp)) _ val out
  | [a, b], h, tail, val, out, _ => by
    simp only [base64_encode, List.cons_append, List.nil_append]
    exact decode_two a b (h a (by simp)) (h b (by simp)) _ val out
  | a :: b :: c :: rest, h, tail, val, out, htail => by
    simp only [base64_encode, List.cons_append]
    obtain ⟨val1, hv⟩ := decode_three a b c (h a (by simp)) (h b (by simp)) (h c (by simp))
      (base64_encode rest ++ tail) val out
    rw [hv, decode_loop_encode rest (fun x hx => h x (by simp [hx])) tail val1 _ htail]
    simp

/-- The standard encoding is at least as long as the bytes it encodes. -/
theorem length_le_encode : ∀ (bs : List Nat), bs.length ≤ (base64_encode bs).length
  | [] => by simp [base64_encode]
  | [a] => by simp [base64_encode]
  | [a, b] => by simp [base64_encode]
  | a :: b :: c :: rest => by
    have := length_le_encode rest
    simp only [base64_encode, List.length_cons]
    omega

/-- No character of the alphabet, and no default of a lookup in it, is a
carriage return. -/
theorem alphabet_ne_cr (i : Nat) : base64_alphabet.getD i 0 ≠ 13 := by
  by_cases hi : i < 64
  · revert i
    decide
  · rw [List.getD_eq_default _ _ (by simpa [base64_alphabet, str] using hi)]
    decide

/-- The standard encoding holds no carriage return. -/
theorem encode_no_cr : ∀ (bs : List Nat), 13 ∉ base64_encode bs
  | [] => by simp [base64_encode]
  | [a] => by
    simp only [base64_encode, List.mem_cons, List.not_mem_nil, or_false, not_or]
    exact ⟨(alphabet_ne_cr _).symm, (alphabet_ne_cr _).symm, by decide, by decide⟩
  | [a, b] => by
    simp only [base64_encode, List.mem_cons, List.not_mem_nil, or_false, not_or]
    exact ⟨(alphabet_ne_cr _).symm, (alphabet_ne_cr _).symm, (alphabet_ne_cr _).symm, by decide⟩
  | a :: b :: c :: rest => by
    have := encode_no_cr rest
    simp only [base64_encode, List.mem_cons, not_or]
    exact ⟨(alphabet_ne_cr _).symm, (alphabet_ne_cr _).symm, (alphabet_ne_cr _).symm,
      (alphabet_ne_cr _).symm, this⟩

/-! ## C2 -/

/-- A scan over a stretch without the first byte of the needle, with the needle
right behind it, stops behind the stretch. -/
theorem find_aux_skip (c : Nat) (tl body post : List Nat) (h : c ∉ body) (i : Nat) :
    find_aux (c :: tl) (body ++ (c :: tl) ++ post) i = i + body.length := by
  induction body generalizing i with
  | nil =>
    have hp : (c :: tl).isPrefixOf (c :: (tl ++ post)) = true :=
      (isPrefixOf_iff _ _).2 ⟨post, rfl⟩
    simp only [List.nil_append, List.cons_append, List.length_nil, Nat.add_zero]
    rw [find_aux, if_pos hp]
  | cons b bs ih =>
    have hb : b ≠ c := fun e => h (by simp [e])
    have hp : (c :: tl).isPrefixOf (b :: (bs ++ (c :: tl) ++ post)) = false := by
      simp [List.isPrefixOf, Ne.symm hb]
    simp only [List.cons_append] at ih ⊢
    rw [find_aux]
    simp only [List.cons_append, hp, Bool.false_eq_true, if_false]
    rw [ih (fun hm => h (List.mem_cons_of_mem _ hm)), List.length_cons]
    omega

set_option maxRecDepth 100000 in
/-- C2, refuted as stated: the `Authorization` field of this request holds the
standard encoding of `pi:raspberry`, which the login service accepts, yet the
service is asked about `guest:guest`, the payload of the `Proxy-Authorization`
field one line earlier, and the request is answered with the 401. -/
theorem earlier_basic_text_is_decoded :
    header_value request_with_both_fields (str "Authorization") =
      some (str "Basic " ++ base64_encode (str "pi" ++ str ":" ++ str "raspberry")) ∧
    only_pi (str "pi") (str "raspberry") = true ∧
    handle_client request_with_both_fields only_pi [] [] =
      ([Event.auth (str "guest") (str "guest"), Event.send response_401, Event.close],
        true) := by
  decide

/-- The first ten bytes of the three responses. -/
theorem response_401_ne_page (logs : List Nat) : response_401 ≠ page_response logs := by
  intro h
  have h32 := congrArg (List.take 32) h
  rw [page_response_take] at h32
  revert h32
  decide

theorem response_401_ne_stream_header : response_401 ≠ stream_response_header := by
  decide

/-- The first write of the routing is never the 401 response. -/
theorem sent_routing_ne_401 (request logs : List Nat) (turns : List Turn) :
    sent (routing request logs turns).1 ≠ [response_401] := by
  unfold routing
  split
  · simp only [List.append_assoc, List.singleton_append, sent]
    intro h
    injection h with h _
    exact response_401_ne_stream_header h.symm
  · simp only [sent]
    intro h
    injection h with h _
    exact response_401_ne_page logs h.symm

theorem calls_append (a b : List Event) : calls (a ++ b) = calls a ++ calls b := by
  induction a with
  | nil => rfl
  | cons e es ih => cases e <;> simp [calls, ih]

theorem calls_stream_pass (t : Turn) : calls (stream_pass t).1 = [] := by
  unfold stream_pass
  simp only
  split
  · rfl
  · split
    · rfl
    · split
      · rfl
      · split <;> rfl

theorem calls_stream_loop (turns : List Turn) : calls (stream_loop turns).1 = [] := by
  induction turns with
  | nil => rfl
  | cons t ts ih =>
    unfold stream_loop
    split
    · split
      · simp only [calls_append, calls_stream_pass, ih, List.append_nil]
      · exact calls_stream_pass t
    · rfl

/-- The routing does not call the login service. -/
theorem calls_routing (request logs : List Nat) (turns : List Turn) :
    calls (routing request logs turns).1 = [] := by
  unfold routing
  split
  · rw [calls_append, calls_append, calls_stream_loop]
    split <;> rfl
  · rfl

/-- C2, as the code has it: let the request (of at most 4096 bytes) hold
`Authorization: Basic `, then the standard Base64 encoding of
`username ++ ":" ++ password`, then the end of the line, and let this be the
first place of the request where the text `Authorization: Basic ` stands; let
`username` hold no colon (`password` may hold any bytes).  Then the payload is
decoded to `username ++ ":" ++ password`, the login service is called once,
with exactly `username` and `password`, before anything is written, and the
request is authenticated if and only if that call returns true: the handler
answers with the 401 exactly when it returns false. -/
theorem basic_credentials_reach_the_service (request pre post username password : List Nat)
    (authority : List Nat → List Nat → Bool) (logs : List Nat) (turns : List Turn)
    (hrequest : request = pre ++ auth_prefix ++
      base64_encode (username ++ str ":" ++ password) ++ str "\r\n" ++ post)
    (hlen : request.length ≤ 4096)
    (hfirst : ∀ j, j < pre.length → ¬ auth_prefix <+: request.drop j)
    (hbytes : ∀ b ∈ username ++ password, b < 256)
    (hcolon : 58 ∉ username) :
    find request auth_prefix 0 = pre.length ∧
    decoded_payload request (find request auth_prefix 0) = username ++ str ":" ++ password ∧
    authentication request authority =
      ([Event.auth username password], authority username password) ∧
    calls (handle_client request authority logs turns).1 = [(username, password)] ∧
    (sent (handle_client request authority logs turns).1 = [response_401] ↔
      authority username password = false) := by
  have hc : str ":" = [58] := by decide
  have hcrlf : str "\r\n" = 13 :: [10] := by decide
  have hp21 : auth_prefix.length = 21 := by decide
  have hle := length_le_encode (username ++ str ":" ++ password)
  have hrl : request.length = pre.length + 21 +
      (base64_encode (username ++ str ":" ++ password)).length + 2 + post.length := by
    rw [hrequest, hcrlf]
    simp only [List.length_append, hp21, List.length_cons, List.length_nil]
  have hul : (username ++ str ":" ++ password).length =
      username.length + 1 + password.length := by
    rw [hc]
    simp only [List.length_append, List.length_cons, List.length_nil]
  -- the position of `auth_prefix`
  have hdrop : request.drop pre.length = auth_prefix ++
      base64_encode (username ++ str ":" ++ password) ++ (13 :: [10]) ++ post := by
    rw [hrequest, hcrlf]
    simp only [List.append_assoc]
    exact List.drop_left _ _
  have hpos : find request auth_prefix 0 = pre.length := by
    have h0 : find request auth_prefix 0 = find_aux auth_prefix request 0 := by simp [find]
    rw [h0, find_aux_eq auth_prefix auth_prefix_ne_nil request 0 pre.length ?_ hfirst]
    · omega
    · rw [hdrop]
      simp only [List.append_assoc]
      exact List.prefix_append _ _
  -- the end of the line
  have hend : find request (str "\r\n") pre.length = pre.length +
      (21 + (base64_encode (username ++ str ":" ++ password)).length) := by
    have h0 : find request (str "\r\n") pre.length =
        find_aux (str "\r\n") (request.drop pre.length) pre.length := by
      simp only [find]
      rw [if_neg (by omega)]
    rw [h0, hdrop, hcrlf, find_aux_skip 13 [10] _ post ?_ pre.length]
    · simp only [List.length_append, hp21]
    · intro hm
      rcases List.mem_append.1 hm with hm | hm
      · revert hm
        decide
      · exact encode_no_cr _ hm
  -- the payload
  have hpayload : decoded_payload request (find request auth_prefix 0) =
      username ++ str ":" ++ password := by
    rw [hpos]
    unfold decoded_payload
    simp only
    rw [hend, hp21]
    have hsub : size_sub (pre.length + (21 + (base64_encode
        (username ++ str ":" ++ password)).length)) (pre.length + 21) =
        (base64_encode (username ++ str ":" ++ password)).length := by
      simp only [size_sub]
      omega
    rw [hsub]
    have hsubstr : substr request (pre.length + 21)
        (base64_encode (username ++ str ":" ++ password)).length =
        base64_encode (username ++ str ":" ++ password) := by
      unfold substr
      have hd : request.drop (pre.length + 21) =
          base64_encode (username ++ str ":" ++ password) ++ (str "\r\n" ++ post) := by
        rw [hrequest]
        have hl : pre.length + 21 = (pre ++ auth_prefix).length := by
          rw [List.length_append, hp21]
        rw [hl]
        simp only [List.append_assoc]
        rw [← List.append_assoc pre]
        exact List.drop_left _ _
      rw [hd]
      exact List.take_left _ _
    rw [hsubstr]
    have hdec : ∀ bs : List Nat, (∀ x ∈ bs, x < 256) →
        base64_decode (base64_encode bs) = bs := by
      intro bs hb
      have := decode_loop_encode bs hb [] 0 [] (Or.inl rfl)
      simpa [base64_decode] using this
    apply hdec
    intro x hx
    rw [hc] at hx
    simp only [List.append_assoc, List.mem_append, List.mem_cons, List.not_mem_nil,
      or_false] at hx
    rcases hx with hx | hx | hx
    · exact hbytes x (List.mem_append_left _ hx)
    · omega
    · exact hbytes x (List.mem_append_right _ hx)
  -- the colon
  have hfind : find (username ++ str ":" ++ password) (str ":") 0 = username.length := by
    have h0 : find (username ++ str ":" ++ password) (str ":") 0 =
        find_aux (str ":") (username ++ str ":" ++ password) 0 := by simp [find]
    rw [h0, hc, find_aux_skip 58 [] username password hcolon 0]
    omega
  have huser : substr (username ++ str ":" ++ password) 0 username.length = username := by
    unfold substr
    rw [List.drop_zero, List.append_assoc]
    exact List.take_left _ _
  have hpass : substr (username ++ str ":" ++ password) (username.length + 1) npos =
      password := by
    unfold substr
    have hd : (username ++ str ":" ++ password).drop (username.length + 1) = password := by
      have hl : username.length + 1 = (username ++ str ":").length := by
        rw [hc, List.length_append]
        rfl
      rw [hl]
      exact List.drop_left _ _
    rw [hd]
    apply List.take_of_length_le
    simp only [npos]
    omega
  have hauth : authentication request authority =
      ([Event.auth username password], authority username password) := by
    unfold authentication
    simp only
    have hne : find request auth_prefix 0 ≠ npos := by
      rw [hpos]
      simp only [npos]
      omega
    rw [if_pos hne, hpayload, hfind]
    have hne2 : username.length ≠ npos := by
      simp only [npos]
      omega
    rw [if_pos hne2, huser, hpass]
  have hcalls : calls (handle_client request authority logs turns).1 =
      [(username, password)] := by
    cases hres : authority username password
    · rw [handle_client_unauthenticated request authority logs turns (by rw [hauth, hres]),
        hauth]
      rfl
    · rw [handle_client_authenticated request authority logs turns (by rw [hauth, hres]),
        hauth, calls_append, calls_routing]
      rfl
  have hsent : sent (handle_client request authority logs turns).1 = [response_401] ↔
      authority username password = false := by
    cases hres : authority username password
    · rw [handle_client_unauthenticated request authority logs turns (by rw [hauth, hres]),
        hauth]
      exact ⟨fun _ => rfl, fun _ => rfl⟩
    · rw [handle_client_authenticated request authority logs turns (by rw [hauth, hres]),
        hauth, sent_append]
      constructor
      · intro h
        exact absurd h (sent_routing_ne_401 request logs turns)
      · intro h
        cases h
  exact ⟨hpos, hpayload, hauth, hcalls, hsent⟩

set_option maxRecDepth 100000 in
/-- C2 at `GET /` with the field `Authorization: Basic cGk6cmFzcGJlcnJ5`. -/
theorem basic_credentials_reach_the_service_witness :
    request_page = str "GET / HTTP/1.1\r\n" ++ auth_prefix ++
      base64_encode (str "pi" ++ str ":" ++ str "raspberry") ++ str "\r\n" ++ str "\r\n" ∧
    authentication request_page only_pi =
      ([Event.auth (str "pi") (str "raspberry")], only_pi (str "pi") (str "raspberry")) ∧
    calls (handle_client request_page only_pi [] []).1 = [(str "pi", str "raspberry")] :=
  ⟨by decide,
    (basic_credentials_reach_the_service request_page (str "GET / HTTP/1.1\r\n") (str "\r\n")
      (str "pi") (str "raspberry") only_pi [] [] (by decide) (by decide) (by decide)
      (by decide) (by decide)).2.2.1,
    (basic_credentials_reach_the_service request_page (str "GET / HTTP/1.1\r\n") (str "\r\n")
      (str "pi") (str "raspberry") only_pi [] [] (by decide) (by decide) (by decide)
      (by decide) (by decide)).2.2.2.1⟩

/-! ## Further properties -/

/-- `base64_decode` inverts the standard Base64 encoding: for every list of
bytes, decoding its encoding, padding included, gives the list back. -/
theorem base64_decode_inverts_encoding (bs : List Nat) (h : ∀ x ∈ bs, x < 256) :
    base64_decode (base64_encode bs) = bs := by
  have := decode_loop_encode bs h [] 0 [] (Or.inl rfl)
  simpa [base64_decode] using this

/-- The round trip at the bytes `0, 255, 58, 13` (one full group and a padded
one). -/
theorem base64_decode_inverts_encoding_witness :
    (∀ x ∈ [0, 255, 58, 13], x < 256) ∧
    base64_decode (base64_encode [0, 255, 58, 13]) = [0, 255, 58, 13] :=
  ⟨by decide, base64_decode_inverts_encoding [0, 255, 58, 13] (by decide)⟩

/-- A pass of the stream loop keeps its sleep and its writes outside the mutex
exactly when it finds a frame: then the mutex is given back before the first
write and the 100 ms sleep; a pass that finds the shared buffer empty sleeps
with the mutex held. -/
theorem lock_only_for_copy_iff_frame (t : Turn) :
    lock_only_for_copy false (stream_pass t).1 = !t.global_jpeg.isEmpty := by
  unfold stream_pass
  simp only
  split
  · rename_i h
    rw [h]
    rfl
  · rename_i h
    have h' : t.global_jpeg.isEmpty = false := by simpa using h
    rw [h']
    split
    · rfl
    · split
      · rfl
      · split <;> rfl

/-- A cycle of the capture loop that captured no frame leaves the shared buffer
as it was. -/
theorem empty_capture_keeps_the_frame (c : Capture) (global_jpeg : List Nat)
    (h : c.frame_empty = true) : capture_cycle c global_jpeg = global_jpeg := by
  simp [capture_cycle, h]

/-- An empty capture over a buffer that holds `frame_a`. -/
theorem empty_capture_keeps_the_frame_witness :
    capture_cycle ⟨true, false, []⟩ frame_a = frame_a :=
  empty_capture_keeps_the_frame ⟨true, false, []⟩ frame_a rfl

/-- A stream session that reaches a turn at which `keep_running` is false
leaves the loop there without another pass, closes the socket and returns. -/
theorem shutdown_ends_the_session (request : List Nat)
    (authority : List Nat → List Nat → Bool) (logs : List Nat)
    (before : List Turn) (t : Turn) (after : List Turn)
    (hlen : request.length ≤ 4096)
    (hauth : (authentication request authority).2 = true)
    (hstream : str "GET /video_feed" <:+: request)
    (hbefore : ∀ b ∈ before, b.keep_running = true ∧
      (b.global_jpeg = [] ∨ (0 ≤ b.sent_header ∧ 0 ≤ b.sent_jpeg ∧ 0 ≤ b.sent_crlf)))
    (hstop : t.keep_running = false) :
    handle_client request authority logs (before ++ t :: after) =
      ((authentication request authority).1 ++
        ([Event.send stream_response_header] ++
          before.flatMap (fun b => (stream_pass b).1) ++ [Event.close]), true) := by
  have hloop : stream_loop (before ++ t :: after) =
      (before.flatMap (fun b => (stream_pass b).1), true) := by
    rw [stream_loop_append before (t :: after)
      (fun b hb => ⟨(hbefore b hb).1, stream_pass_goes_on b (hbefore b hb).2⟩)]
    simp [stream_loop, hstop]
  rw [handle_client_authenticated request authority logs _ hauth,
    routing_stream request logs _ hlen hstream, hloop]
  simp

set_option maxRecDepth 100000 in
/-- A session that sends `frame_a` once and then sees the shutdown flag. -/
theorem shutdown_ends_the_session_witness :
    handle_client request_stream only_pi []
        ([⟨true, frame_a, 60, 4, 2⟩] ++ ⟨false, frame_b, 0, 0, 0⟩ :: []) =
      ([Event.auth (str "pi") (str "raspberry")] ++
        ([Event.send stream_response_header] ++
          [Event.lock, Event.unlock, Event.send (part_header 4), Event.send frame_a,
            Event.send (str "\r\n"), Event.sleep 100] ++ [Event.close]), true) :=
  shutdown_ends_the_session request_stream only_pi [] [⟨true, frame_a, 60, 4, 2⟩]
    ⟨false, frame_b, 0, 0, 0⟩ [] (by decide) (by decide) (by decide) (by decide) (by decide)

/-- The `substr` calls of `handle_client` start inside their string, so none
throws `std::out_of_range`: when `auth_prefix` is found, the position behind
it is at most the size of the request, and when the colon is found in the
decoded payload, the position behind it is at most the size of the payload. -/
theorem substr_calls_in_range (request : List Nat) :
    (find request auth_prefix 0 ≠ npos →
      find request auth_prefix 0 + auth_prefix.length ≤ request.length) ∧
    (find (decoded_payload request (find request auth_prefix 0)) (str ":") 0 ≠ npos →
      find (decoded_payload request (find request auth_prefix 0)) (str ":") 0 + 1 ≤
        (decoded_payload request (find request auth_prefix 0)).length) :=
  ⟨find_in_range auth_prefix request auth_prefix_ne_nil,
    find_in_range (str ":") _ (by decide)⟩

end FaceRecognition
